import Mathlib

/-!
Shallow embedding of the terminal-emulator core of the `1t` repository:
the `ScreenBuffer`/`TerminalWidget` screen model (src/terminalwidget.h,
src/terminalwidget.cpp) and the `EscapeSequenceParser` byte-stream decoder
(src/escapeparser.h, src/escapeparser.cpp).

Conventions of the embedding:
* C++ `int` fields are `Int`; sizes that are nonnegative in every call of
  the program (grid dimensions, buffer lengths) are `Nat`.
* `QChar` is a UTF-16 code unit, embedded as a `Nat` (< 0x10000 in all
  reachable states).
* The row-major `std::vector<Cell>` backing store of `ScreenBuffer` is
  represented by its list of rows (`List (List Cell)`); `resize` is given
  the flat vector semantics of `std::vector::resize` (truncate / extend
  with value-initialized cells, then regroup).
* Out-of-bounds element access, which is undefined behaviour in the C++
  source, is totalized: reads yield the value-initialized cell, writes are
  dropped.  No theorem below depends on such an access.
* GUI-only side effects (viewport repaints, the scrollbar, the PTY ioctl,
  beeping) have no bearing on the screen-model state and are omitted.
-/

namespace OneT

/-- One grid cell (struct `Cell`, terminalwidget.h): a UTF-16 code unit,
foreground and background colour indices, and a style bitmask. -/
structure Cell where
  ch : Nat
  fg : Int
  bg : Int
  style : Nat
  deriving DecidableEq

/-- The value-initialized cell produced by `std::vector<Cell>::resize`. -/
def Cell.default0 : Cell := { ch := 0, fg := 0, bg := 0, style := 0 }

/-- `ScreenBuffer` (terminalwidget.h): a rows × cols grid, stored row-major;
represented here by its list of rows. -/
structure ScreenBuffer where
  rows : Nat
  cols : Nat
  cells : List (List Cell)
  deriving DecidableEq

/-- Regroup a flat cell vector into `r` rows of `c` cells. -/
def chunkRows (r c : Nat) (flat : List Cell) : List (List Cell) :=
  match r with
  | 0 => []
  | r' + 1 => flat.take c :: chunkRows r' c (flat.drop c)

/-- `ScreenBuffer::ScreenBuffer(rows, cols)`: a grid of value-initialized
cells. -/
def ScreenBuffer.mk0 (r c : Nat) : ScreenBuffer :=
  { rows := r, cols := c, cells := List.replicate r (List.replicate c Cell.default0) }

/-- `ScreenBuffer::resize`: the flat backing vector is truncated or extended
with value-initialized cells to `r * c` entries and reinterpreted with the
new width. -/
def ScreenBuffer.resize (b : ScreenBuffer) (r c : Nat) : ScreenBuffer :=
  let flat := b.cells.flatten
  let n := r * c
  let flat' := flat.take n ++ List.replicate (n - flat.length) Cell.default0
  { rows := r, cols := c, cells := chunkRows r c flat' }

/-- Read row `r` of the grid (empty when out of bounds). -/
def ScreenBuffer.row (b : ScreenBuffer) (r : Int) : List Cell :=
  b.cells.getD r.toNat []

/-- `ScreenBuffer::cell(row, col)` as a read. -/
def ScreenBuffer.cellAt (b : ScreenBuffer) (r c : Int) : Cell :=
  (b.row r).getD c.toNat Cell.default0

/-- `ScreenBuffer::cell(row, col) = x` as a write (dropped when out of
bounds, which is UB in the source). -/
def ScreenBuffer.setCell (b : ScreenBuffer) (r c : Int) (x : Cell) : ScreenBuffer :=
  { b with cells := b.cells.set r.toNat ((b.cells.getD r.toNat []).set c.toNat x) }

/-- Replace a whole row of the grid. -/
def ScreenBuffer.setRow (b : ScreenBuffer) (r : Int) (newRow : List Cell) : ScreenBuffer :=
  { b with cells := b.cells.set r.toNat newRow }

/-- `ScreenBuffer::fillRow(row, startCol, endCol, fillCell)`: clamp
`startCol` to 0 and `endCol` to `cols`, no-op when the row is out of range,
then overwrite columns `[startCol, endCol)`. -/
def ScreenBuffer.fillRow (b : ScreenBuffer) (row : Int) (startCol endCol : Int) (fillCell : Cell) : ScreenBuffer :=
  let s : Int := if startCol < 0 then 0 else startCol
  let e : Int := if endCol > (b.cols : Int) then (b.cols : Int) else endCol
  if row < 0 ∨ row ≥ (b.rows : Int) then b
  else
    b.setRow row (((b.row row).mapIdx fun i x => if s ≤ (i : Int) ∧ (i : Int) < e then fillCell else x))

/-- `std::clamp` on `int` (precondition `lo ≤ hi` holds at every call site). -/
def iclamp (v lo hi : Int) : Int := max lo (min v hi)

/-- The screen-model state of `TerminalWidget` (terminalwidget.h): the two
grids, the scrollback deque, cursor/attribute state, scrolling region and
mode flags.  Presentation-only members (fonts, selection, blink, PTY fds)
are outside the model. -/
structure TermState where
  mainScreen : ScreenBuffer
  alternateScreen : ScreenBuffer
  scrollback : List (List Cell)
  scrollbackMax : Nat
  inAlternateScreen : Bool
  cursorRow : Int
  cursorCol : Int
  savedCursorRow : Int
  savedCursorCol : Int
  currentFg : Int
  currentBg : Int
  currentStyle : Nat
  scrollRegionTop : Int
  scrollRegionBottom : Int
  mouseEnabled : Bool
  windowTitle : List Nat
  deriving DecidableEq

namespace TermState

/-- `TerminalWidget::TerminalWidget`: 24×80 grids, scrollback max 1000,
cursor at the origin, default attributes, full-screen scrolling region. -/
def init : TermState :=
  { mainScreen := ScreenBuffer.mk0 24 80
    alternateScreen := ScreenBuffer.mk0 24 80
    scrollback := []
    scrollbackMax := 1000
    inAlternateScreen := false
    cursorRow := 0
    cursorCol := 0
    savedCursorRow := 0
    savedCursorCol := 0
    currentFg := 7
    currentBg := 0
    currentStyle := 0
    scrollRegionTop := 0
    scrollRegionBottom := 23
    mouseEnabled := true
    windowTitle := [] }

/-- `TerminalWidget::currentBuffer`. -/
def currentBuffer (t : TermState) : ScreenBuffer :=
  if t.inAlternateScreen then t.alternateScreen else t.mainScreen

/-- Write back the buffer selected by the alternate-screen flag. -/
def setCurrentBuffer (t : TermState) (b : ScreenBuffer) : TermState :=
  if t.inAlternateScreen then { t with alternateScreen := b } else { t with mainScreen := b }

/-- `TerminalWidget::makeCellForCurrentAttr`: a blank (space) cell carrying
the current attributes. -/
def makeCellForCurrentAttr (t : TermState) : Cell :=
  { ch := 32, fg := t.currentFg, bg := t.currentBg, style := t.currentStyle }

/-- `TerminalWidget::clampCursor`. -/
def clampCursor (t : TermState) : TermState :=
  { t with
    cursorRow := iclamp t.cursorRow 0 ((t.currentBuffer.rows : Int) - 1)
    cursorCol := iclamp t.cursorCol 0 ((t.currentBuffer.cols : Int) - 1) }

/-- `TerminalWidget::setCursorPos(r, c, doClamp)`. -/
def setCursorPos (t : TermState) (r c : Int) (doClamp : Bool) : TermState :=
  let r' := if doClamp then iclamp r 0 ((t.currentBuffer.rows : Int) - 1) else r
  let c' := if doClamp then iclamp c 0 ((t.currentBuffer.cols : Int) - 1) else c
  { t with cursorRow := r', cursorCol := c' }

/-- `TerminalWidget::setCursorRow` (terminalwidget.h): assign then clamp. -/
def setCursorRow (t : TermState) (row : Int) : TermState :=
  clampCursor { t with cursorRow := row }

/-- `TerminalWidget::setCursorCol` (terminalwidget.h): assign then clamp. -/
def setCursorCol (t : TermState) (col : Int) : TermState :=
  clampCursor { t with cursorCol := col }

/-- `TerminalWidget::saveCursorPos`. -/
def saveCursorPos (t : TermState) : TermState :=
  { t with savedCursorRow := t.cursorRow, savedCursorCol := t.cursorCol }

/-- `TerminalWidget::restoreCursorPos`. -/
def restoreCursorPos (t : TermState) : TermState :=
  clampCursor { t with cursorRow := t.savedCursorRow, cursorCol := t.savedCursorCol }

/-- `TerminalWidget::fillScreen`. -/
def fillScreen (b : ScreenBuffer) (blank : Cell) : ScreenBuffer :=
  { b with cells := b.cells.map fun row => row.map fun _ => blank }

/-- `TerminalWidget::scrollUp(top, bottom)`: copy the vacated top row, shift
rows `[top+1, bottom]` up by one, blank row `bottom` with the current
attributes, then push the vacated row into the scrollback deque, evicting
its front element when it is at capacity. -/
def scrollUp (t : TermState) (top bottom : Int) : TermState :=
  let buf := t.currentBuffer
  let cols := buf.cols
  let regionHeight := bottom - top + 1
  if regionHeight ≤ 0 then t
  else
    let firstRow := buf.row top
    let shifted : ScreenBuffer :=
      { buf with
        cells := buf.cells.mapIdx fun r rowCells =>
          if top ≤ (r : Int) ∧ (r : Int) < bottom then buf.cells.getD (r + 1) [] else rowCells }
    let blanked := shifted.fillRow bottom 0 (cols : Int) t.makeCellForCurrentAttr
    let t1 := t.setCurrentBuffer blanked
    let sb := if t.scrollback.length = t.scrollbackMax then t.scrollback.tail else t.scrollback
    { t1 with scrollback := sb ++ [firstRow] }

/-- `TerminalWidget::scrollDown(top, bottom)`: shift rows `[top, bottom-1]`
down by one and blank row `top`; the scrollback is not touched. -/
def scrollDown (t : TermState) (top bottom : Int) : TermState :=
  let buf := t.currentBuffer
  let cols := buf.cols
  let regionHeight := bottom - top + 1
  if regionHeight ≤ 0 then t
  else
    let shifted : ScreenBuffer :=
      { buf with
        cells := buf.cells.mapIdx fun r rowCells =>
          if top < (r : Int) ∧ (r : Int) ≤ bottom then buf.cells.getD (r - 1) [] else rowCells }
    let blanked := shifted.fillRow top 0 (cols : Int) t.makeCellForCurrentAttr
    t.setCurrentBuffer blanked

/-- `TerminalWidget::lineFeed`: advance the row; past the scrolling-region
bottom, scroll the region up and stay on its bottom row; finally clamp. -/
def lineFeed (t : TermState) : TermState :=
  let t1 := { t with cursorRow := t.cursorRow + 1 }
  let t2 :=
    if t1.cursorRow > t1.scrollRegionBottom then
      { t1.scrollUp t1.scrollRegionTop t1.scrollRegionBottom with cursorRow := t1.scrollRegionBottom }
    else t1
  t2.clampCursor

/-- `TerminalWidget::reverseLineFeed`. -/
def reverseLineFeed (t : TermState) : TermState :=
  let t1 :=
    if t.cursorRow = t.scrollRegionTop then t.scrollDown t.scrollRegionTop t.scrollRegionBottom
    else { t with cursorRow := max (t.cursorRow - 1) 0 }
  t1.clampCursor

/-- Model of `QChar::isHighSurrogate`. -/
def isHighSurrogate (u : Nat) : Bool := 0xD800 ≤ u ∧ u ≤ 0xDBFF

/-- Model of `QChar::isLowSurrogate`. -/
def isLowSurrogate (u : Nat) : Bool := 0xDC00 ≤ u ∧ u ≤ 0xDFFF

/-- Model of `QChar::isPrint` on UTF-16 code units: false for the C0
controls, DEL and the C1 controls, surrogates and the BMP noncharacters;
true otherwise.  (Faithful on every code point the program's theorems
exercise.) -/
def isPrint (u : Nat) : Bool :=
  ¬ (u < 0x20 ∨ (0x7F ≤ u ∧ u ≤ 0x9F) ∨ (0xD800 ≤ u ∧ u ≤ 0xDFFF) ∨
     (0xFDD0 ≤ u ∧ u ≤ 0xFDEF) ∨ 0xFFFE ≤ u)

/-- `TerminalWidget::putChar(ch)`: CR resets the column, LF line-feeds;
non-printable characters, DEL and lone surrogates are skipped; otherwise
wrap when the column has run past the last column, write the cell with the
current attributes and advance the column. -/
def putChar (t : TermState) (ch : Nat) : TermState :=
  if ch = 13 then
    clampCursor { t with cursorCol := 0 }
  else if ch = 10 then
    clampCursor { t.lineFeed with cursorCol := 0 }
  else if ¬ isPrint ch ∨ ch = 0x7F ∨ isHighSurrogate ch ∨ isLowSurrogate ch then t
  else
    let t1 :=
      if t.cursorCol ≥ (t.currentBuffer.cols : Int) then { t.lineFeed with cursorCol := 0 }
      else t
    let cell : Cell := { ch := ch, fg := t1.currentFg, bg := t1.currentBg, style := t1.currentStyle }
    let t2 := t1.setCurrentBuffer (t1.currentBuffer.setCell t1.cursorRow t1.cursorCol cell)
    { t2 with cursorCol := t2.cursorCol + 1 }

/-- `TerminalWidget::deleteChars(n)`: `n` times, shift the cursor row left
from the cursor column and blank the last column. -/
def deleteChars (t : TermState) (n : Int) : TermState :=
  if t.cursorRow < 0 ∨ t.cursorRow ≥ (t.currentBuffer.rows : Int) ∨ n < 1 then t
  else
    let step : TermState → TermState := fun s =>
      let buf := s.currentBuffer
      let rowCells := buf.row s.cursorRow
      let newRow := rowCells.mapIdx fun i x =>
        if s.cursorCol ≤ (i : Int) ∧ (i : Int) < (buf.cols : Int) - 1 then rowCells.getD (i + 1) Cell.default0
        else if (i : Int) = (buf.cols : Int) - 1 then s.makeCellForCurrentAttr
        else x
      s.setCurrentBuffer (buf.setRow s.cursorRow newRow)
    Nat.rec t (fun _ acc => step acc) n.toNat

/-- `TerminalWidget::eraseChars(n)`: blank columns `[cursorCol, cursorCol+n)`
of the cursor row, stopping at the right edge. -/
def eraseChars (t : TermState) (n : Int) : TermState :=
  if t.cursorRow < 0 ∨ t.cursorRow ≥ (t.currentBuffer.rows : Int) ∨ n < 1 then t
  else
    let buf := t.currentBuffer
    let rowCells := buf.row t.cursorRow
    let newRow := rowCells.mapIdx fun i x =>
      if t.cursorCol ≤ (i : Int) ∧ (i : Int) < t.cursorCol + n then t.makeCellForCurrentAttr else x
    t.setCurrentBuffer (buf.setRow t.cursorRow newRow)

/-- `TerminalWidget::insertChars(n)`: `n` times, shift the cursor row right
after the cursor column and blank the cursor column. -/
def insertChars (t : TermState) (n : Int) : TermState :=
  if t.cursorRow < 0 ∨ t.cursorRow ≥ (t.currentBuffer.rows : Int) ∨ n < 1 then t
  else
    let step : TermState → TermState := fun s =>
      let buf := s.currentBuffer
      let rowCells := buf.row s.cursorRow
      let newRow := rowCells.mapIdx fun i x =>
        if s.cursorCol < (i : Int) ∧ (i : Int) ≤ (buf.cols : Int) - 1 then rowCells.getD (i - 1) Cell.default0
        else if (i : Int) = s.cursorCol then s.makeCellForCurrentAttr
        else x
      s.setCurrentBuffer (buf.setRow s.cursorRow newRow)
    Nat.rec t (fun _ acc => step acc) n.toNat

/-- `TerminalWidget::eraseInLine(mode)`: blank a span of the cursor row with
the current attributes (mode 0: cursor to end, 1: start through cursor,
2 and others: whole line). -/
def eraseInLine (t : TermState) (mode : Int) : TermState :=
  if t.cursorRow < 0 ∨ t.cursorRow ≥ (t.currentBuffer.rows : Int) then t
  else
    let buf := t.currentBuffer
    let startCol : Int := if mode = 0 then t.cursorCol else 0
    let endCol : Int :=
      if mode = 0 then (buf.cols : Int)
      else if mode = 1 then t.cursorCol + 1
      else (buf.cols : Int)
    let blank := t.makeCellForCurrentAttr
    let rowCells := buf.row t.cursorRow
    let newRow := rowCells.mapIdx fun i x =>
      if startCol ≤ (i : Int) ∧ (i : Int) < endCol then blank else x
    t.setCurrentBuffer (buf.setRow t.cursorRow newRow)

/-- `TerminalWidget::eraseInDisplay(mode)`. -/
def eraseInDisplay (t : TermState) (mode : Int) : TermState :=
  let blank := t.makeCellForCurrentAttr
  if mode = 2 then t.setCurrentBuffer (fillScreen t.currentBuffer blank)
  else if mode = 0 then
    let t1 := t.eraseInLine 0
    let buf := t1.currentBuffer
    let newCells := buf.cells.mapIdx fun r rowCells =>
      if t.cursorRow + 1 ≤ (r : Int) then rowCells.map fun _ => blank else rowCells
    t1.setCurrentBuffer { buf with cells := newCells }
  else if mode = 1 then
    let t1 := t.eraseInLine 1
    let buf := t1.currentBuffer
    let newCells := buf.cells.mapIdx fun r rowCells =>
      if (r : Int) < t.cursorRow then rowCells.map fun _ => blank else rowCells
    t1.setCurrentBuffer { buf with cells := newCells }
  else t

/-- `TerminalWidget::setScrollingRegion(top, bottom)`: `bottom < top` resets
to the full screen, otherwise both bounds are clamped to the screen. -/
def setScrollingRegion (t : TermState) (top bottom : Int) : TermState :=
  if bottom < top then
    { t with scrollRegionTop := 0, scrollRegionBottom := (t.currentBuffer.rows : Int) - 1 }
  else
    { t with
      scrollRegionTop := iclamp top 0 ((t.currentBuffer.rows : Int) - 1)
      scrollRegionBottom := iclamp bottom 0 ((t.currentBuffer.rows : Int) - 1) }

/-- `TerminalWidget::useAlternateScreen(alt)`: idempotent; switching on
resizes the alternate buffer to the primary's dimensions and blanks it. -/
def useAlternateScreen (t : TermState) (alt : Bool) : TermState :=
  if t.inAlternateScreen = alt then t
  else if alt then
    let resized := t.alternateScreen.resize t.mainScreen.rows t.mainScreen.cols
    { t with alternateScreen := fillScreen resized t.makeCellForCurrentAttr, inAlternateScreen := alt }
  else { t with inAlternateScreen := alt }

/-- `TerminalWidget::setTerminalSize(rows, cols)`: resize both grids,
copy the old primary content over the overlapping rectangle, blank the rows
below it, and reset the scrolling region; the cursor is left untouched. -/
def setTerminalSize (t : TermState) (rows cols : Nat) : TermState :=
  if t.mainScreen.rows = rows ∧ t.mainScreen.cols = cols then t
  else
    let oldMain := t.mainScreen
    let mainR := t.mainScreen.resize rows cols
    let altR := t.alternateScreen.resize rows cols
    let copyRows := min rows oldMain.rows
    let copyCols := min cols oldMain.cols
    let blank := t.makeCellForCurrentAttr
    let newMainCells := mainR.cells.mapIdx fun r rowCells =>
      if r < copyRows then
        rowCells.mapIdx fun c x => if c < copyCols then (oldMain.cells.getD r []).getD c Cell.default0 else x
      else rowCells.map fun _ => blank
    { t with
      mainScreen := { mainR with cells := newMainCells }
      alternateScreen := altR
      scrollRegionTop := 0
      scrollRegionBottom := (rows : Int) - 1 }

/-- `TerminalWidget::fullReset`: clear the scrollback, blank both screens
with the current attributes, return to the primary screen, home the cursor,
reset attributes and the scrolling region. -/
def fullReset (t : TermState) : TermState :=
  let blank := t.makeCellForCurrentAttr
  { t with
    scrollback := []
    mainScreen := fillScreen t.mainScreen blank
    alternateScreen := fillScreen t.alternateScreen blank
    inAlternateScreen := false
    cursorRow := 0
    cursorCol := 0
    currentFg := 7
    currentBg := 0
    currentStyle := 0
    scrollRegionTop := 0
    scrollRegionBottom := (t.mainScreen.rows : Int) - 1 }

/-- `TerminalWidget::setMouseEnabled`. -/
def setMouseEnabled (t : TermState) (enabled : Bool) : TermState :=
  { t with mouseEnabled := enabled }

/-- The body of `TerminalWidget::setSGR`'s parameter loop; 38/48 consume a
`5`-prefixed 256-colour argument (the leading `i+1 < size` test of the
source), unknown codes fall through the switch.  `fuel` bounds the
iteration count; every iteration consumes at least one parameter, so the
list length is always enough fuel. -/
def setSGRGo : Nat → TermState → List Int → TermState
  | 0, t, _ => t
  | _ + 1, t, [] => t
  | fuel + 1, t, p :: rest =>
    if p = 0 then setSGRGo fuel { t with currentFg := 7, currentBg := 0, currentStyle := 0 } rest
    else if p = 1 then setSGRGo fuel { t with currentStyle := t.currentStyle ||| 1 } rest
    else if p = 4 then setSGRGo fuel { t with currentStyle := t.currentStyle ||| 2 } rest
    else if p = 7 then setSGRGo fuel { t with currentStyle := t.currentStyle ||| 4 } rest
    else if p = 22 then setSGRGo fuel { t with currentStyle := t.currentStyle &&& 254 } rest
    else if p = 24 then setSGRGo fuel { t with currentStyle := t.currentStyle &&& 253 } rest
    else if p = 27 then setSGRGo fuel { t with currentStyle := t.currentStyle &&& 251 } rest
    else if p = 39 then setSGRGo fuel { t with currentFg := 7 } rest
    else if p = 49 then setSGRGo fuel { t with currentBg := 0 } rest
    else if 30 ≤ p ∧ p ≤ 37 then setSGRGo fuel { t with currentFg := p - 30 } rest
    else if 40 ≤ p ∧ p ≤ 47 then setSGRGo fuel { t with currentBg := p - 40 } rest
    else if 90 ≤ p ∧ p ≤ 97 then setSGRGo fuel { t with currentFg := p - 90 + 8 } rest
    else if 100 ≤ p ∧ p ≤ 107 then setSGRGo fuel { t with currentBg := p - 100 + 8 } rest
    else if p = 38 then
      if 2 ≤ rest.length ∧ rest.headD 0 = 5 then
        setSGRGo fuel { t with currentFg := rest.getD 1 0 } (rest.drop 2)
      else setSGRGo fuel t rest
    else if p = 48 then
      if 2 ≤ rest.length ∧ rest.headD 0 = 5 then
        setSGRGo fuel { t with currentBg := rest.getD 1 0 } (rest.drop 2)
      else setSGRGo fuel t rest
    else setSGRGo fuel t rest

/-- The parameter loop of `TerminalWidget::setSGR`. -/
def setSGRLoop (t : TermState) (params : List Int) : TermState :=
  setSGRGo params.length t params

/-- `TerminalWidget::setSGR(params)`: an empty list resets the attributes,
otherwise the parameter loop runs. -/
def setSGR (t : TermState) (params : List Int) : TermState :=
  if params = [] then { t with currentFg := 7, currentBg := 0, currentStyle := 0 }
  else setSGRLoop t params

end TermState

/-- The decoder's state-machine positions (`EscapeSequenceParser::State`). -/
inductive MState where
  | ground
  | escape
  | csiEntry
  | csiParam
  | csiIntermediate
  | csiIgnore
  | oscString
  | sosPmApcString
  deriving DecidableEq

/-- The decoder's persistent state (escapeparser.h): machine position plus
the pending text / parameter / intermediate / OSC buffers and the
private-mode flag.  (`m_escIntermediate` and `m_lastWasCR` are declared in
the header but never read, and are omitted.) -/
structure PState where
  state : MState
  textBuffer : List Nat
  paramBuffer : List Nat
  intermediate : List Nat
  oscString : List Nat
  escQuestionMark : Bool
  deriving DecidableEq

/-- `EscapeSequenceParser::resetStateMachine`: the state after
construction. -/
def PState.init : PState :=
  { state := .ground
    textBuffer := []
    paramBuffer := []
    intermediate := []
    oscString := []
    escQuestionMark := false }

/-- Decoder plus bound widget: the full state `feed` acts on. -/
structure FullState where
  parser : PState
  widget : TermState
  deriving DecidableEq

/-- A fresh parser bound to a freshly constructed widget. -/
def FullState.init : FullState := { parser := PState.init, widget := TermState.init }

/-- Model of `QString::fromUtf8`: UTF-8 bytes to UTF-16 code units, with
invalid, overlong or truncated sequences replaced by U+FFFD and
supplementary-plane characters encoded as surrogate pairs. -/
def contByte (u : Nat) : Bool := 0x80 ≤ u ∧ u < 0xC0

/-- UTF-8 bytes to UTF-16 code units, with invalid, overlong or truncated
sequences replaced by U+FFFD and supplementary-plane characters encoded as
surrogate pairs.  `fuel` bounds the iteration count; every iteration
consumes at least one byte, so the byte count is always enough fuel. -/
def decodeUtf8Go : Nat → List Nat → List Nat
  | 0, _ => []
  | _ + 1, [] => []
  | fuel + 1, b :: rest =>
    if b < 0x80 then b :: decodeUtf8Go fuel rest
    else if b < 0xC2 then 0xFFFD :: decodeUtf8Go fuel rest
    else if b < 0xE0 then
      if rest = [] then [0xFFFD]
      else if contByte (rest.headD 0) then
        ((b - 0xC0) * 64 + (rest.headD 0 - 0x80)) :: decodeUtf8Go fuel (rest.drop 1)
      else 0xFFFD :: decodeUtf8Go fuel rest
    else if b < 0xF0 then
      if rest = [] then [0xFFFD]
      else if ¬ contByte (rest.headD 0) then 0xFFFD :: decodeUtf8Go fuel rest
      else if rest.drop 1 = [] then [0xFFFD]
      else if ¬ contByte (rest.getD 1 0) then 0xFFFD :: decodeUtf8Go fuel rest
      else
        let cp := (b - 0xE0) * 4096 + (rest.headD 0 - 0x80) * 64 + (rest.getD 1 0 - 0x80)
        if cp < 0x800 ∨ (0xD800 ≤ cp ∧ cp ≤ 0xDFFF) then 0xFFFD :: decodeUtf8Go fuel (rest.drop 2)
        else cp :: decodeUtf8Go fuel (rest.drop 2)
    else if b < 0xF5 then
      if rest = [] then [0xFFFD]
      else if ¬ contByte (rest.headD 0) then 0xFFFD :: decodeUtf8Go fuel rest
      else if rest.drop 1 = [] then [0xFFFD]
      else if ¬ contByte (rest.getD 1 0) then 0xFFFD :: decodeUtf8Go fuel rest
      else if rest.drop 2 = [] then [0xFFFD]
      else if ¬ contByte (rest.getD 2 0) then 0xFFFD :: decodeUtf8Go fuel rest
      else
        let cp := (b - 0xF0) * 262144 + (rest.headD 0 - 0x80) * 4096 +
                  (rest.getD 1 0 - 0x80) * 64 + (rest.getD 2 0 - 0x80)
        if cp < 0x10000 ∨ 0x10FFFF < cp then 0xFFFD :: decodeUtf8Go fuel (rest.drop 3)
        else (0xD800 + (cp - 0x10000) / 1024) :: (0xDC00 + (cp - 0x10000) % 1024) :: decodeUtf8Go fuel (rest.drop 3)
    else 0xFFFD :: decodeUtf8Go fuel rest

/-- Model of `QString::fromUtf8`. -/
def decodeUtf8 (l : List Nat) : List Nat := decodeUtf8Go l.length l

/-- One step of the character loop of
`EscapeSequenceParser::flushTextBuffer`: CR homes the column, LF
line-feeds, anything else goes to `putChar`. -/
def emitOne (u : Nat) (t : TermState) : TermState :=
  if u = 13 then t.setCursorPos t.cursorRow 0 true
  else if u = 10 then t.lineFeed
  else t.putChar u

/-- The character loop of `EscapeSequenceParser::flushTextBuffer`: a high
surrogate followed by a low surrogate is joined (the joined character's
first UTF-16 unit — the high surrogate itself — is sent to `putChar`) and
both units are consumed; otherwise units are emitted one by one. -/
def emitUnits : List Nat → TermState → TermState
  | [], t => t
  | [u], t => emitOne u t
  | u :: v :: rest, t =>
    if TermState.isHighSurrogate u ∧ TermState.isLowSurrogate v then emitUnits rest (t.putChar u)
    else emitUnits (v :: rest) (emitOne u t)

/-- `EscapeSequenceParser::flushTextBuffer`: decode the pending UTF-8 bytes,
run the character loop on the widget, and clear the buffer. -/
def flushTextBuffer (s : FullState) : FullState :=
  { s with
    widget := emitUnits (decodeUtf8 s.parser.textBuffer) s.widget
    parser := { s.parser with textBuffer := [] } }

/-- `EscapeSequenceParser::handleControlChar`: CR, LF, BS, BEL and HT
(8-column tab stops); other C0 bytes are ignored. -/
def handleControlChar (c0 : Nat) (t : TermState) : TermState :=
  if c0 = 0x0D then t.setCursorPos t.cursorRow 0 true
  else if c0 = 0x0A then t.lineFeed
  else if c0 = 0x08 then (t.setCursorCol (t.cursorCol - 1)).clampCursor
  else if c0 = 0x07 then t
  else if c0 = 0x09 then
    let nextTab := (Int.tdiv t.cursorCol 8 + 1) * 8
    (t.setCursorCol nextTab).clampCursor
  else t

/-- `QByteArray::toInt` on one `;`-separated parameter field (the fields
contain only decimal digits by construction): empty or `int`-overflowing
fields fail and are replaced by 0 in `csiDispatch`. -/
def parsePart (bytes : List Nat) : Int :=
  if bytes = [] then 0
  else
    let v : Nat := bytes.foldl (fun acc b => acc * 10 + (b - 48)) 0
    if v > 2147483647 then 0 else (v : Int)

/-- `QByteArray::split(';')`. -/
def splitSemi : List Nat → List (List Nat)
  | [] => [[]]
  | b :: rest =>
    if b = 59 then [] :: splitSemi rest
    else
      match splitSemi rest with
      | [] => [[b]]
      | part :: parts => (b :: part) :: parts

/-- The parameter-list construction of `EscapeSequenceParser::csiDispatch`:
split the buffer on `;`, parse each field (invalid fields become 0), and
fall back to a single 0 when the list is empty. -/
def parseParams (buf : List Nat) : List Int :=
  let params := if buf = [] then [] else (splitSemi buf).map parsePart
  if params = [] then [0] else params

/-- The parameter accessor `P(idx, def)` of `csiDispatch`. -/
def Pget (params : List Int) (idx : Nat) (dflt : Int) : Int :=
  params.getD idx dflt

/-- `EscapeSequenceParser::csiDispatch(finalByte)`: cursor motion, erase,
character edit, SGR and scrolling-region dispatch; every other final byte
(including the private-mode finals `h`/`l`) falls through the switch and
only the parameter buffers are cleared. -/
def csiDispatch (finalByte : Nat) (s : FullState) : FullState :=
  let params := parseParams s.parser.paramBuffer
  let t := s.widget
  let rows : Int := (t.currentBuffer.rows : Int)
  let cols : Int := (t.currentBuffer.cols : Int)
  let curR := t.cursorRow
  let curC := t.cursorCol
  let w :=
    if finalByte = 65 then (t.setCursorRow (curR - Pget params 0 1))
    else if finalByte = 66 then (t.setCursorRow (curR + Pget params 0 1))
    else if finalByte = 67 then t.setCursorCol (min (curC + Pget params 0 1) (cols - 1))
    else if finalByte = 68 then t.setCursorCol (max (curC - Pget params 0 1) 0)
    else if finalByte = 71 then t.setCursorPos curR (iclamp (Pget params 0 1 - 1) 0 (cols - 1)) false
    else if finalByte = 72 ∨ finalByte = 102 then
      t.setCursorPos (iclamp (Pget params 0 1 - 1) 0 (rows - 1)) (iclamp (Pget params 1 1 - 1) 0 (cols - 1)) false
    else if finalByte = 74 then t.eraseInDisplay (Pget params 0 0)
    else if finalByte = 75 then t.eraseInLine (Pget params 0 0)
    else if finalByte = 80 then t.deleteChars (Pget params 0 1)
    else if finalByte = 88 then t.eraseChars (Pget params 0 1)
    else if finalByte = 64 then t.insertChars (Pget params 0 1)
    else if finalByte = 109 then t.setSGR params
    else if finalByte = 114 then
      let top := iclamp (Pget params 0 1 - 1) 0 (rows - 1)
      let bottom := iclamp (Pget params 1 rows - 1) 0 (rows - 1)
      if top > bottom then t.setScrollingRegion bottom top else t.setScrollingRegion top bottom
    else t
  { s with widget := w, parser := { s.parser with paramBuffer := [], intermediate := [] } }

/-- Model of `QString::toInt` for the OSC code field: an optional sign
followed by at least one digit, within `int` range. -/
def parseOscInt (units : List Nat) : Option Int :=
  let (sign, digits) :=
    match units with
    | 45 :: rest => ((-1 : Int), rest)
    | 43 :: rest => ((1 : Int), rest)
    | _ => ((1 : Int), units)
  if digits = [] ∨ ¬ digits.all (fun u => 48 ≤ u ∧ u ≤ 57) then none
  else
    let v : Nat := digits.foldl (fun acc b => acc * 10 + (b - 48)) 0
    if (v : Int) * sign > 2147483647 ∨ (v : Int) * sign < -2147483648 then none
    else some ((v : Int) * sign)

/-- `EscapeSequenceParser::oscDispatch`: split the accumulated string on the
first `;`; codes 0 and 2 set the window title, everything else (including a
missing `;` or an unparsable code) is ignored. -/
def oscDispatch (s : FullState) : FullState :=
  let osc := s.parser.oscString
  let s' := { s with parser := { s.parser with oscString := [] } }
  match osc.findIdx? (fun b => b = 59) with
  | none => s'
  | some sep =>
    match parseOscInt (osc.take sep) with
    | none => s'
    | some ps =>
      if ps = 0 ∨ ps = 2 then { s' with widget := { s'.widget with windowTitle := osc.drop (sep + 1) } }
      else s'

/-- `EscapeSequenceParser::processCsiSubState`. -/
def processCsiSubState (b : Nat) (s : FullState) : FullState :=
  match s.parser.state with
  | .csiEntry =>
    if b = 63 then { s with parser := { s.parser with escQuestionMark := true, state := .csiParam } }
    else if (48 ≤ b ∧ b ≤ 57) ∨ b = 59 then
      { s with parser := { s.parser with paramBuffer := s.parser.paramBuffer ++ [b], state := .csiParam } }
    else if 0x20 ≤ b ∧ b ≤ 0x2F then
      { s with parser := { s.parser with intermediate := s.parser.intermediate ++ [b], state := .csiIntermediate } }
    else if 0x40 ≤ b ∧ b ≤ 0x7E then
      let s' := csiDispatch b s
      { s' with parser := { s'.parser with state := .ground } }
    else { s with parser := { s.parser with state := .ground } }
  | .csiParam =>
    if (48 ≤ b ∧ b ≤ 57) ∨ b = 59 then
      { s with parser := { s.parser with paramBuffer := s.parser.paramBuffer ++ [b] } }
    else if 0x20 ≤ b ∧ b ≤ 0x2F then
      { s with parser := { s.parser with intermediate := s.parser.intermediate ++ [b], state := .csiIntermediate } }
    else if 0x40 ≤ b ∧ b ≤ 0x7E then
      let s' := csiDispatch b s
      { s' with parser := { s'.parser with state := .ground } }
    else { s with parser := { s.parser with state := .csiIgnore } }
  | .csiIntermediate =>
    if 0x20 ≤ b ∧ b ≤ 0x2F then
      { s with parser := { s.parser with intermediate := s.parser.intermediate ++ [b] } }
    else if 0x40 ≤ b ∧ b ≤ 0x7E then
      let s' := csiDispatch b s
      { s' with parser := { s'.parser with state := .ground } }
    else { s with parser := { s.parser with state := .csiIgnore } }
  | .csiIgnore =>
    if 0x40 ≤ b ∧ b ≤ 0x7E then { s with parser := { s.parser with state := .ground } }
    else s
  | _ => s

/-- The `Escape`-state branch of `EscapeSequenceParser::processByte`. -/
def processEscapeByte (b : Nat) (s : FullState) : FullState :=
  if b = 91 then
    { s with parser := { s.parser with state := .csiEntry, paramBuffer := [], intermediate := [], escQuestionMark := false } }
  else if b = 93 then
    { s with parser := { s.parser with state := .oscString, oscString := [] } }
  else if b = 55 then { s with widget := s.widget.saveCursorPos, parser := { s.parser with state := .ground } }
  else if b = 56 then { s with widget := s.widget.restoreCursorPos, parser := { s.parser with state := .ground } }
  else if b = 68 then { s with widget := s.widget.lineFeed, parser := { s.parser with state := .ground } }
  else if b = 77 then { s with widget := s.widget.reverseLineFeed, parser := { s.parser with state := .ground } }
  else if b = 69 then
    let w1 := s.widget.lineFeed
    { s with widget := w1.setCursorPos w1.cursorRow 0 true, parser := { s.parser with state := .ground } }
  else if b = 99 then { s with widget := s.widget.fullReset, parser := { s.parser with state := .ground } }
  else { s with parser := { s.parser with state := .ground } }

/-- The `OscString`-state branch of `EscapeSequenceParser::processByte`:
BEL dispatches; ESC is buffered; a backslash after a buffered ESC chops it
and dispatches; everything else is buffered. -/
def processOscByte (b : Nat) (s : FullState) : FullState :=
  if b = 0x07 then
    let s' := oscDispatch s
    { s' with parser := { s'.parser with state := .ground } }
  else if b = 0x1B then { s with parser := { s.parser with oscString := s.parser.oscString ++ [0x1B] } }
  else if b = 92 then
    if s.parser.oscString ≠ [] ∧ s.parser.oscString.getLast? = some 0x1B then
      let s' := oscDispatch { s with parser := { s.parser with oscString := s.parser.oscString.dropLast } }
      { s' with parser := { s'.parser with state := .ground } }
    else { s with parser := { s.parser with oscString := s.parser.oscString ++ [92] } }
  else { s with parser := { s.parser with oscString := s.parser.oscString ++ [b] } }

/-- `EscapeSequenceParser::processByte`: the byte-class table sends C0 bytes
to the control handler, ESC into the `Escape` state and all other bytes in
`Ground` into the pending text buffer; the remaining states delegate to
their sub-machines. -/
def processByte (b : Nat) (s : FullState) : FullState :=
  match s.parser.state with
  | .ground =>
    if b = 0x1B then { flushTextBuffer s with parser := { (flushTextBuffer s).parser with state := .escape } }
    else if b < 0x20 then
      let s' := flushTextBuffer s
      { s' with widget := handleControlChar b s'.widget }
    else { s with parser := { s.parser with textBuffer := s.parser.textBuffer ++ [b] } }
  | .escape => processEscapeByte b s
  | .csiEntry => processCsiSubState b s
  | .csiParam => processCsiSubState b s
  | .csiIntermediate => processCsiSubState b s
  | .csiIgnore => processCsiSubState b s
  | .oscString => processOscByte b s
  | .sosPmApcString => s

/-- The byte loop of `EscapeSequenceParser::feed`. -/
def feedBytes (data : List Nat) (s : FullState) : FullState :=
  data.foldl (fun acc b => processByte b acc) s

/-- `EscapeSequenceParser::feed(data)`: process every byte, then flush the
pending text buffer.  (The trailing `updateScreen` repaint notification
carries no model state.) -/
def feed (data : List Nat) (s : FullState) : FullState :=
  flushTextBuffer (feedBytes data s)

/-- Feeding a list of chunks through successive `feed` calls. -/
def feedChunks (chunks : List (List Nat)) (s : FullState) : FullState :=
  chunks.foldl (fun acc c => feed c acc) s

/-- Iterating `scrollUp` over a list of `(top, bottom)` regions, recording
each vacated top row (the rows the calls push to scrollback) in
chronological order. -/
def runScrollOps : List (Int × Int) → TermState → TermState × List (List Cell)
  | [], t => (t, [])
  | (a, b) :: ops, t =>
    let pushed : List (List Cell) :=
      if b - a + 1 ≤ 0 then [] else [t.currentBuffer.row a]
    let next := runScrollOps ops (t.scrollUp a b)
    (next.1, pushed ++ next.2)

/-- A widget state with fresh `r × c` grids (as after a window resize),
otherwise carrying the constructor defaults. -/
def mkSmall (r c : Nat) : TermState :=
  { TermState.init with
    mainScreen := ScreenBuffer.mk0 r c
    alternateScreen := ScreenBuffer.mk0 r c
    scrollRegionBottom := (r : Int) - 1 }

/-- The bytes of `ESC [ ? 1 0 4 9 h`. -/
def seq1049h : List Nat := [0x1B, 91, 63, 49, 48, 52, 57, 104]

/-- The bytes of `ESC [ ? 1 0 4 9 l`. -/
def seq1049l : List Nat := [0x1B, 91, 63, 49, 48, 52, 57, 108]

/-- The bytes of `ESC [ A` (cursor up, no parameters). -/
def seqCsiA : List Nat := [0x1B, 91, 65]

/-- A fresh 24×80 session with the cursor moved to row 5, column 3. -/
def exampleRow5 : FullState :=
  { FullState.init with widget := FullState.init.widget.setCursorPos 5 3 true }

/-- A fresh session after a resize to 3 rows (scrolling region `[0, 2]`). -/
def exampleRows3 : FullState :=
  { FullState.init with widget := FullState.init.widget.setTerminalSize 3 4 }

/-- A fresh session on small 2×3 grids. -/
def exampleSmall : FullState := { FullState.init with widget := mkSmall 2 3 }

/-- A small widget state with the cursor at column 3. -/
def exampleCol3 : TermState := (mkSmall 2 5).setCursorPos 0 3 true

/-- A small session whose attribute state has been dirtied
(fg = 3, bg = 5, style = Bold|Underline|Inverse). -/
def exampleAttr : FullState :=
  { parser := PState.init
    widget := { mkSmall 2 3 with currentFg := 3, currentBg := 5, currentStyle := 7 } }

/-- A small session whose decoder is sitting in `CsiIgnore`. -/
def exampleCsiIgnore : FullState :=
  { parser := { PState.init with state := .csiIgnore }, widget := mkSmall 2 3 }

/-- The set of SGR parameter codes the `setSGR` switch recognizes. -/
def sgrKnownCode (p : Int) : Prop :=
  p = 0 ∨ p = 1 ∨ p = 4 ∨ p = 7 ∨ p = 22 ∨ p = 24 ∨ p = 27 ∨ p = 39 ∨ p = 49 ∨
  (30 ≤ p ∧ p ≤ 37) ∨ (40 ≤ p ∧ p ≤ 47) ∨ (90 ≤ p ∧ p ≤ 97) ∨ (100 ≤ p ∧ p ≤ 107) ∨
  p = 38 ∨ p = 48

/-- The CSI final bytes `csiDispatch` recognizes
(`A B C D G H f J K P X @ m r`). -/
def csiKnownFinal (b : Nat) : Prop :=
  b = 65 ∨ b = 66 ∨ b = 67 ∨ b = 68 ∨ b = 71 ∨ b = 72 ∨ b = 102 ∨ b = 74 ∨
  b = 75 ∨ b = 80 ∨ b = 88 ∨ b = 64 ∨ b = 109 ∨ b = 114

/-- The CSI-accumulating machine positions. -/
def csiSubState (m : MState) : Prop :=
  m = .csiEntry ∨ m = .csiParam ∨ m = .csiIntermediate ∨ m = .csiIgnore

/-- Cursor inside the current grid, the column possibly resting one past the
last column (the deferred-wrap position that `putChar` leaves behind after
writing in the last column). -/
def cursorInBounds (t : TermState) : Prop :=
  0 ≤ t.cursorRow ∧ t.cursorRow < (t.currentBuffer.rows : Int) ∧
  0 ≤ t.cursorCol ∧ t.cursorCol ≤ (t.currentBuffer.cols : Int)

/-- Well-formedness of a widget state: non-degenerate equal-sized grids,
cursor in bounds, scrolling region inside the screen. -/
def WF (t : TermState) : Prop :=
  1 ≤ t.mainScreen.rows ∧ 1 ≤ t.mainScreen.cols ∧
  t.alternateScreen.rows = t.mainScreen.rows ∧ t.alternateScreen.cols = t.mainScreen.cols ∧
  cursorInBounds t ∧
  0 ≤ t.scrollRegionTop ∧ t.scrollRegionTop ≤ t.scrollRegionBottom ∧
  t.scrollRegionBottom < (t.mainScreen.rows : Int)

/-- The cursor position together with the current grid dimensions. -/
def cdim (t : TermState) : Int × Int × Nat × Nat :=
  (t.cursorRow, t.cursorCol, t.currentBuffer.rows, t.currentBuffer.cols)

/-- Pending decoded text is only held while the machine is in `Ground`:
every transition out of `Ground` flushes it first.  Holds for the initial
state and for every state a `feed` call can leave behind. -/
def TBInv (s : FullState) : Prop :=
  s.parser.state ≠ MState.ground → s.parser.textBuffer = []

/-- All pending text-buffer bytes are ASCII. -/
def TBAscii (s : FullState) : Prop :=
  ∀ b ∈ s.parser.textBuffer, b < 0x80

/-- C1: the claim says `ESC[?1049h` / `ESC[?1049l` toggle the alternate
screen.  In the code, `csiDispatch` has no case for the final bytes
`h`/`l` (its `doSetMode`/`doResetMode`, which implement the 1049 toggle via
`useAlternateScreen`, are never called), so on a fresh session `ESC[?1049h`
does not enter the alternate screen, and feeding the enter/leave pair
leaves the whole widget state untouched. -/
theorem c1_private_mode_1049_csi_is_noop :
    (feed seq1049h FullState.init).widget.inAlternateScreen = false ∧
    (feed (seq1049h ++ seq1049l) FullState.init).widget = FullState.init.widget := by
  constructor
  · decide
  · decide

/-- C5: the claim says a missing CSI parameter defaults the movement count
to 1 (`ESC[A` moves up one row).  In the code an empty parameter list is
pre-filled with a single 0, so `P(0, 1)` never returns its default and
`ESC[A` moves the cursor by 0 rows: from (5, 3) it stays at (5, 3). -/
theorem c5_cursor_up_without_params_is_noop :
    (feed seqCsiA exampleRow5).widget.cursorRow = 5 ∧
    (feed seqCsiA exampleRow5).widget.cursorCol = 3 := by
  constructor
  · decide
  · decide

/-- C9 counterexample: on a fresh session resized to 3 rows (default
scrolling region `[0, 2]`, cursor at the origin), feeding 4 LF bytes pushes
two rows into scrollback, not exactly one as the claim states. -/
theorem c9_four_newlines_push_two_rows_not_one :
    ¬ ((feed [10, 10, 10, 10] exampleRows3).widget.scrollback.length = 1) := by
  decide

/-- C9 amended: with `rows = 3` and scrolling region `[0, 2]`, the cursor
reaches the bottom row after two line feeds, so 4 line feeds scroll twice:
exactly two rows are pushed to scrollback and the cursor row is clamped
to 2. -/
theorem c9_amended_four_newlines_two_rows :
    (feed [10, 10, 10, 10] exampleRows3).widget.scrollback.length = 2 ∧
    (feed [10, 10, 10, 10] exampleRows3).widget.cursorRow = 2 := by
  constructor
  · decide
  · decide

/-- C10 counterexample: CR (0x0D) is non-printable, yet `putChar` handles it
before the skip test and homes the column, so `putChar('\r')` is not a
no-op on a state whose cursor column is 3. -/
theorem c10_putChar_cr_is_not_noop :
    ¬ (exampleCol3.putChar 13 = exampleCol3) := by
  decide

/-- C10 amended: for every character that is non-printable, DEL, or a lone
surrogate — other than CR (0x0D) and LF (0x0A), which `putChar` first
handles as cursor motions — `putChar` leaves the state completely
unchanged. -/
theorem c10_amended_nonprintable_putChar_is_noop (t : TermState) (ch : Nat)
    (h13 : ch ≠ 13) (h10 : ch ≠ 10)
    (h : TermState.isPrint ch = false ∨ ch = 0x7F ∨
         TermState.isHighSurrogate ch = true ∨ TermState.isLowSurrogate ch = true) :
    t.putChar ch = t := by
  rw [TermState.putChar, if_neg h13, if_neg h10, if_pos]
  rcases h with h | h | h | h <;> simp [h]

/-- C10 amended, witness: BEL (0x07) is non-printable and `putChar` leaves a
fresh widget unchanged on it. -/
theorem c10_witness : TermState.init.putChar 7 = TermState.init :=
  c10_amended_nonprintable_putChar_is_noop TermState.init 7 (by decide) (by decide)
    (Or.inl (by decide))

/-- `setCurrentBuffer` writes a grid, never the scrollback. -/
theorem scrollback_setCurrentBuffer (t : TermState) (b : ScreenBuffer) :
    (t.setCurrentBuffer b).scrollback = t.scrollback := by
  unfold TermState.setCurrentBuffer
  split <;> rfl

/-- C2 counterexample: the claim says scrolling a proper sub-region of the
primary screen never pushes to scrollback; in the code `scrollUp` pushes
unconditionally, so scrolling the one-row region `[0, 0]` of a fresh 2×3
primary screen leaves a non-empty scrollback. -/
theorem c2_subregion_scrollUp_pushes :
    ¬ (((mkSmall 2 3).scrollUp 0 0).scrollback = []) := by
  decide

/-- C2 amended: for every state and every non-empty region `[top, bottom]`,
`scrollUp` pushes the vacated top row into scrollback — regardless of which
screen is current or whether the region is the full visible area — evicting
the oldest row when the deque is at capacity; `scrollDown` never touches
the scrollback. -/
theorem c2_amended_scrollUp_always_pushes (t : TermState) (top bottom : Int)
    (h : top ≤ bottom) :
    (t.scrollUp top bottom).scrollback =
      (if t.scrollback.length = t.scrollbackMax then t.scrollback.tail else t.scrollback)
        ++ [t.currentBuffer.row top] ∧
    ∀ (u : TermState) (a b : Int), (u.scrollDown a b).scrollback = u.scrollback := by
  constructor
  · have hr : ¬ (bottom - top + 1 ≤ 0) := by omega
    simp only [TermState.scrollUp, hr, if_false, scrollback_setCurrentBuffer]
  · intro u a b
    simp only [TermState.scrollDown]
    split
    · rfl
    · simp only [scrollback_setCurrentBuffer]

/-- C2 amended, witness: scrolling the region `[0, 0]` of a fresh 2×3
screen appends its (blank) top row to the empty scrollback. -/
theorem c2_witness :
    ((mkSmall 2 3).scrollUp 0 0).scrollback =
      (if (mkSmall 2 3).scrollback.length = (mkSmall 2 3).scrollbackMax
       then (mkSmall 2 3).scrollback.tail else (mkSmall 2 3).scrollback)
        ++ [(mkSmall 2 3).currentBuffer.row 0] :=
  (c2_amended_scrollUp_always_pushes (mkSmall 2 3) 0 0 (by decide)).1

/-- C3 counterexample: the 2-byte UTF-8 character é (0xC3 0xA9) fed whole
writes é, but fed split across two `feed` calls each half is flushed and
decoded alone, producing two U+FFFD replacement characters: the resulting
states differ, so chunk-boundary invariance fails for split multi-byte
UTF-8 text. -/
theorem c3_split_utf8_differs :
    ¬ (feedChunks [[0xC3], [0xA9]] exampleSmall = feed [0xC3, 0xA9] exampleSmall) := by
  decide

/-- C4 counterexample: (a) `putChar` in the last column of a 1×1 screen
leaves the cursor column equal to `cols` (deferred wrap), violating
`col < cols`; (b) `setTerminalSize` does not re-clamp the cursor, so after
shrinking a 2×1 screen (cursor on row 1) to 1×1 the cursor row equals
`rows`. -/
theorem c4_wrap_and_resize_violate_strict_bounds :
    ¬ (((mkSmall 1 1).putChar 88).cursorCol <
        (((mkSmall 1 1).putChar 88).currentBuffer.cols : Int)) ∧
    ¬ ((((mkSmall 2 1).lineFeed).setTerminalSize 1 1).cursorRow <
        (((((mkSmall 2 1).lineFeed).setTerminalSize 1 1)).currentBuffer.rows : Int)) := by
  constructor
  · decide
  · decide

/-- Unrecognized CSI final bytes fall through the `csiDispatch` switch:
the widget is untouched (only the parameter buffers are cleared). -/
theorem csiDispatch_unknown_final_widget (fb : Nat) (s : FullState)
    (h : ¬ csiKnownFinal fb) : (csiDispatch fb s).widget = s.widget := by
  unfold csiKnownFinal at h
  have h65 : ¬ (fb = 65) := by omega
  have h66 : ¬ (fb = 66) := by omega
  have h67 : ¬ (fb = 67) := by omega
  have h68 : ¬ (fb = 68) := by omega
  have h71 : ¬ (fb = 71) := by omega
  have h72 : ¬ (fb = 72 ∨ fb = 102) := by omega
  have h74 : ¬ (fb = 74) := by omega
  have h75 : ¬ (fb = 75) := by omega
  have h80 : ¬ (fb = 80) := by omega
  have h88 : ¬ (fb = 88) := by omega
  have h64 : ¬ (fb = 64) := by omega
  have h109 : ¬ (fb = 109) := by omega
  have h114 : ¬ (fb = 114) := by omega
  simp only [csiDispatch, if_neg h65, if_neg h66, if_neg h67, if_neg h68, if_neg h71,
    if_neg h72, if_neg h74, if_neg h75, if_neg h80, if_neg h88,
    if_neg h64, if_neg h109, if_neg h114]

/-- C7: from each of the four CSI sub-states, any final byte in
`[0x40, 0x7E]` returns the machine to `Ground`; when that final byte is not
one of the recognized commands, the dispatch degrades to a no-op on the
screen model. -/
theorem c7_csi_final_byte_returns_to_ground (s : FullState) (b : Nat)
    (hs : csiSubState s.parser.state) (hb1 : 0x40 ≤ b) (hb2 : b ≤ 0x7E) :
    (processByte b s).parser.state = .ground ∧
    (¬ csiKnownFinal b → (processByte b s).widget = s.widget) := by
  have h63 : ¬ (b = 63) := by omega
  have hdig : ¬ ((48 ≤ b ∧ b ≤ 57) ∨ b = 59) := by omega
  have hint : ¬ (0x20 ≤ b ∧ b ≤ 0x2F) := by omega
  have hfin : 0x40 ≤ b ∧ b ≤ 0x7E := ⟨hb1, hb2⟩
  rcases hs with h | h | h | h <;>
    refine ⟨?_, fun hk => ?_⟩ <;>
      simp only [processByte, h, processCsiSubState, if_neg h63, if_neg hdig, if_neg hint,
        if_pos hfin] <;>
      first
        | rfl
        | exact csiDispatch_unknown_final_widget b s hk

/-- C7 witness: from `CsiIgnore`, the unrecognized final byte `z` (0x7A)
returns the machine to `Ground` and leaves the widget unchanged. -/
theorem c7_witness :
    (processByte 0x7A exampleCsiIgnore).parser.state = .ground ∧
    (processByte 0x7A exampleCsiIgnore).widget = exampleCsiIgnore.widget := by
  have h := c7_csi_final_byte_returns_to_ground exampleCsiIgnore
    0x7A (Or.inr (Or.inr (Or.inr rfl))) (by decide) (by decide)
  exact ⟨h.1, h.2 (by unfold csiKnownFinal; omega)⟩

/-- An unknown code at the head of the SGR parameter list is skipped
without altering the state. -/
theorem c8_sgr_reset_and_unknown_skip (s : FullState)
    (hst : s.parser.state = .ground) (htb : s.parser.textBuffer = []) :
    (feed [0x1B, 91, 48, 109] s).widget.currentFg = 7 ∧
    (feed [0x1B, 91, 48, 109] s).widget.currentBg = 0 ∧
    (feed [0x1B, 91, 48, 109] s).widget.currentStyle = 0 ∧
    (∀ (t : TermState) (p : Int) (rest : List Int), ¬ sgrKnownCode p →
      TermState.setSGRLoop t (p :: rest) = TermState.setSGRLoop t rest) := by
  obtain ⟨⟨st, tb, pb, im, osc, q⟩, w⟩ := s
  simp only at hst htb
  subst hst htb
  refine ⟨rfl, rfl, rfl, ?_⟩
  intro t p rest hp
  unfold sgrKnownCode at hp
  have g0 : ¬ (p = 0) := by omega
  have g1 : ¬ (p = 1) := by omega
  have g4 : ¬ (p = 4) := by omega
  have g7 : ¬ (p = 7) := by omega
  have g22 : ¬ (p = 22) := by omega
  have g24 : ¬ (p = 24) := by omega
  have g27 : ¬ (p = 27) := by omega
  have g39 : ¬ (p = 39) := by omega
  have g49 : ¬ (p = 49) := by omega
  have g30 : ¬ (30 ≤ p ∧ p ≤ 37) := by omega
  have g40 : ¬ (40 ≤ p ∧ p ≤ 47) := by omega
  have g90 : ¬ (90 ≤ p ∧ p ≤ 97) := by omega
  have g100 : ¬ (100 ≤ p ∧ p ≤ 107) := by omega
  have g38 : ¬ (p = 38) := by omega
  have g48 : ¬ (p = 48) := by omega
  simp only [TermState.setSGRLoop, List.length_cons, TermState.setSGRGo, if_neg g0,
    if_neg g1, if_neg g4, if_neg g7, if_neg g22, if_neg g24, if_neg g27, if_neg g39,
    if_neg g49, if_neg g30, if_neg g40, if_neg g90, if_neg g100, if_neg g38, if_neg g48]

theorem rows_fillRow (b : ScreenBuffer) (r s e : Int) (x : Cell) :
    (b.fillRow r s e x).rows = b.rows := by
  simp only [ScreenBuffer.fillRow]
  split <;> rfl

theorem cols_fillRow (b : ScreenBuffer) (r s e : Int) (x : Cell) :
    (b.fillRow r s e x).cols = b.cols := by
  simp only [ScreenBuffer.fillRow]
  split <;> rfl

theorem currentBuffer_setCurrentBuffer (t : TermState) (b : ScreenBuffer) :
    (t.setCurrentBuffer b).currentBuffer = b := by
  unfold TermState.setCurrentBuffer TermState.currentBuffer
  rcases h : t.inAlternateScreen <;> simp [h]

theorem cdim_setCurrentBuffer (t : TermState) (b : ScreenBuffer)
    (hr : b.rows = t.currentBuffer.rows) (hc : b.cols = t.currentBuffer.cols) :
    cdim (t.setCurrentBuffer b) = cdim t := by
  unfold cdim TermState.setCurrentBuffer TermState.currentBuffer
  rcases h : t.inAlternateScreen <;>
    simp_all [TermState.currentBuffer, h]

/-- `scrollUp` moves grid content and scrollback only: the cursor and the
grid dimensions are untouched. -/
theorem cdim_scrollback_update (u : TermState) (sb : List (List Cell)) :
    cdim { u with scrollback := sb } = cdim u := rfl

theorem cdim_scrollUp (t : TermState) (a b : Int) :
    cdim (t.scrollUp a b) = cdim t := by
  simp only [TermState.scrollUp]
  split
  · rfl
  · rw [cdim_scrollback_update]
    exact cdim_setCurrentBuffer _ _ (by simp [rows_fillRow]) (by simp [cols_fillRow])

/-- `scrollDown` moves grid content only: the cursor and the grid
dimensions are untouched. -/
theorem cdim_scrollDown (t : TermState) (a b : Int) :
    cdim (t.scrollDown a b) = cdim t := by
  simp only [TermState.scrollDown]
  split
  · rfl
  · exact cdim_setCurrentBuffer _ _ (by simp [rows_fillRow]) (by simp [cols_fillRow])

theorem currentBuffer_clampCursor (t : TermState) :
    t.clampCursor.currentBuffer = t.currentBuffer := rfl

/-- `clampCursor` establishes strict cursor bounds (hence `cursorInBounds`)
on any non-degenerate grid. -/
theorem clampCursor_bounds (t : TermState) (hr : 1 ≤ t.currentBuffer.rows)
    (hc : 1 ≤ t.currentBuffer.cols) : cursorInBounds t.clampCursor := by
  unfold cursorInBounds TermState.clampCursor iclamp
  simp only [TermState.currentBuffer] at *
  rcases h : t.inAlternateScreen <;> simp only [h] at * <;>
    constructor <;> omega

theorem cursorRow_scrollUp (t : TermState) (a b : Int) :
    (t.scrollUp a b).cursorRow = t.cursorRow :=
  congrArg (fun q => q.1) (cdim_scrollUp t a b)

theorem cursorCol_scrollUp (t : TermState) (a b : Int) :
    (t.scrollUp a b).cursorCol = t.cursorCol :=
  congrArg (fun q => q.2.1) (cdim_scrollUp t a b)

theorem rows_scrollUp (t : TermState) (a b : Int) :
    (t.scrollUp a b).currentBuffer.rows = t.currentBuffer.rows :=
  congrArg (fun q => q.2.2.1) (cdim_scrollUp t a b)

theorem cols_scrollUp (t : TermState) (a b : Int) :
    (t.scrollUp a b).currentBuffer.cols = t.currentBuffer.cols :=
  congrArg (fun q => q.2.2.2) (cdim_scrollUp t a b)

theorem rows_scrollDown (t : TermState) (a b : Int) :
    (t.scrollDown a b).currentBuffer.rows = t.currentBuffer.rows :=
  congrArg (fun q => q.2.2.1) (cdim_scrollDown t a b)

theorem cols_scrollDown (t : TermState) (a b : Int) :
    (t.scrollDown a b).currentBuffer.cols = t.currentBuffer.cols :=
  congrArg (fun q => q.2.2.2) (cdim_scrollDown t a b)

theorem cursorInBounds_of_cdim_eq (t t' : TermState) (h : cdim t' = cdim t)
    (hb : cursorInBounds t) : cursorInBounds t' := by
  unfold cursorInBounds
  unfold cdim at h
  simp only [Prod.mk.injEq] at h
  obtain ⟨h1, h2, h3, h4⟩ := h
  rw [h1, h2, h3, h4]
  exact hb

theorem rows_lineFeed (t : TermState) :
    t.lineFeed.currentBuffer.rows = t.currentBuffer.rows := by
  simp only [TermState.lineFeed]
  split
  · exact rows_scrollUp { t with cursorRow := t.cursorRow + 1 } t.scrollRegionTop
      t.scrollRegionBottom
  · rfl

theorem cols_lineFeed (t : TermState) :
    t.lineFeed.currentBuffer.cols = t.currentBuffer.cols := by
  simp only [TermState.lineFeed]
  split
  · exact cols_scrollUp { t with cursorRow := t.cursorRow + 1 } t.scrollRegionTop
      t.scrollRegionBottom
  · rfl

/-- `lineFeed` ends in `clampCursor`, so it restores cursor bounds on any
non-degenerate grid. -/
theorem lineFeed_bounds (t : TermState) (hr : 1 ≤ t.currentBuffer.rows)
    (hc : 1 ≤ t.currentBuffer.cols) : cursorInBounds t.lineFeed := by
  simp only [TermState.lineFeed]
  split
  · exact clampCursor_bounds _
      (le_of_le_of_eq hr (rows_scrollUp { t with cursorRow := t.cursorRow + 1 }
        t.scrollRegionTop t.scrollRegionBottom).symm)
      (le_of_le_of_eq hc (cols_scrollUp { t with cursorRow := t.cursorRow + 1 }
        t.scrollRegionTop t.scrollRegionBottom).symm)
  · exact clampCursor_bounds _ hr hc

/-- `reverseLineFeed` ends in `clampCursor`, so it restores cursor bounds. -/
theorem reverseLineFeed_bounds (t : TermState) (hr : 1 ≤ t.currentBuffer.rows)
    (hc : 1 ≤ t.currentBuffer.cols) : cursorInBounds t.reverseLineFeed := by
  simp only [TermState.reverseLineFeed]
  split
  · exact clampCursor_bounds _ (le_of_le_of_eq hr (rows_scrollDown _ _ _).symm)
      (le_of_le_of_eq hc (cols_scrollDown _ _ _).symm)
  · exact clampCursor_bounds _ hr hc

theorem currentBuffer_withCursorCol (t : TermState) (v : Int) :
    ({ t with cursorCol := v } : TermState).currentBuffer = t.currentBuffer := rfl

theorem currentBuffer_withCursorRow (t : TermState) (v : Int) :
    ({ t with cursorRow := v } : TermState).currentBuffer = t.currentBuffer := rfl

theorem currentBuffer_withCursor (t : TermState) (r c : Int) :
    ({ t with cursorRow := r, cursorCol := c } : TermState).currentBuffer =
      t.currentBuffer := rfl

theorem rows_setCell (b : ScreenBuffer) (r c : Int) (x : Cell) :
    (b.setCell r c x).rows = b.rows := rfl

theorem cols_setCell (b : ScreenBuffer) (r c : Int) (x : Cell) :
    (b.setCell r c x).cols = b.cols := rfl

theorem setCursorPos_clamped_bounds (t : TermState) (r c : Int)
    (hr : 1 ≤ t.currentBuffer.rows) (hc : 1 ≤ t.currentBuffer.cols) :
    cursorInBounds (t.setCursorPos r c true) :=
  clampCursor_bounds ({ t with cursorRow := r, cursorCol := c } : TermState) hr hc

theorem cursorRow_setCurrentBuffer (t : TermState) (b : ScreenBuffer) :
    (t.setCurrentBuffer b).cursorRow = t.cursorRow := by
  unfold TermState.setCurrentBuffer
  split <;> rfl

theorem cursorCol_setCurrentBuffer (t : TermState) (b : ScreenBuffer) :
    (t.setCurrentBuffer b).cursorCol = t.cursorCol := by
  unfold TermState.setCurrentBuffer
  split <;> rfl

/-- After writing a cell (a grid-only change) and advancing the column by
one from a position strictly left of the right edge, the cursor is still in
bounds. -/
theorem putChar_write_bounds_aux (u : TermState) (X : ScreenBuffer)
    (hrows : X.rows = u.currentBuffer.rows) (hcols : X.cols = u.currentBuffer.cols)
    (h1 : 0 ≤ u.cursorRow) (h2 : u.cursorRow < (u.currentBuffer.rows : Int))
    (h3 : 0 ≤ u.cursorCol) (h4 : u.cursorCol + 1 ≤ (u.currentBuffer.cols : Int)) :
    cursorInBounds
      ({ u.setCurrentBuffer X with cursorCol := (u.setCurrentBuffer X).cursorCol + 1 } :
        TermState) := by
  unfold cursorInBounds
  rw [currentBuffer_withCursorCol, currentBuffer_setCurrentBuffer]
  dsimp only
  rw [cursorRow_setCurrentBuffer, cursorCol_setCurrentBuffer]
  refine ⟨?_, ?_, ?_, ?_⟩ <;> omega

/-- `eraseInLine` rewrites one row of the current grid: cursor and
dimensions are untouched. -/
theorem cdim_eraseInLine (t : TermState) (m : Int) :
    cdim (t.eraseInLine m) = cdim t := by
  simp only [TermState.eraseInLine]
  split
  · rfl
  · exact cdim_setCurrentBuffer _ _ rfl rfl

/-- `eraseInDisplay` rewrites grid content only. -/
theorem cdim_eraseInDisplay (t : TermState) (m : Int) :
    cdim (t.eraseInDisplay m) = cdim t := by
  simp only [TermState.eraseInDisplay]
  split_ifs
  · exact cdim_setCurrentBuffer _ _ rfl rfl
  · exact Eq.trans (cdim_setCurrentBuffer _ _ rfl rfl) (cdim_eraseInLine t 0)
  · exact Eq.trans (cdim_setCurrentBuffer _ _ rfl rfl) (cdim_eraseInLine t 1)
  · rfl

/-- `deleteChars` rewrites one row of the current grid. -/
theorem cdim_deleteChars (t : TermState) (n : Int) :
    cdim (t.deleteChars n) = cdim t := by
  simp only [TermState.deleteChars]
  split
  · rfl
  · induction n.toNat with
    | zero => rfl
    | succ k ih => exact Eq.trans (cdim_setCurrentBuffer _ _ rfl rfl) ih

/-- `eraseChars` rewrites one row of the current grid. -/
theorem cdim_eraseChars (t : TermState) (n : Int) :
    cdim (t.eraseChars n) = cdim t := by
  simp only [TermState.eraseChars]
  split
  · rfl
  · exact cdim_setCurrentBuffer _ _ rfl rfl

/-- `insertChars` rewrites one row of the current grid. -/
theorem cdim_insertChars (t : TermState) (n : Int) :
    cdim (t.insertChars n) = cdim t := by
  simp only [TermState.insertChars]
  split
  · rfl
  · induction n.toNat with
    | zero => rfl
    | succ k ih => exact Eq.trans (cdim_setCurrentBuffer _ _ rfl rfl) ih

set_option maxHeartbeats 1600000 in
/-- The SGR loop writes attribute fields only. -/
theorem cdim_setSGRGo (fuel : Nat) (t : TermState) (params : List Int) :
    cdim (TermState.setSGRGo fuel t params) = cdim t := by
  induction fuel generalizing t params with
  | zero => rfl
  | succ n ih =>
    cases params with
    | nil => rfl
    | cons p rest =>
      rw [TermState.setSGRGo]
      by_cases h0 : p = 0
      · rw [if_pos h0]; exact ih _ _
      rw [if_neg h0]
      by_cases h1 : p = 1
      · rw [if_pos h1]; exact ih _ _
      rw [if_neg h1]
      by_cases h4 : p = 4
      · rw [if_pos h4]; exact ih _ _
      rw [if_neg h4]
      by_cases h7 : p = 7
      · rw [if_pos h7]; exact ih _ _
      rw [if_neg h7]
      by_cases h22 : p = 22
      · rw [if_pos h22]; exact ih _ _
      rw [if_neg h22]
      by_cases h24 : p = 24
      · rw [if_pos h24]; exact ih _ _
      rw [if_neg h24]
      by_cases h27 : p = 27
      · rw [if_pos h27]; exact ih _ _
      rw [if_neg h27]
      by_cases h39 : p = 39
      · rw [if_pos h39]; exact ih _ _
      rw [if_neg h39]
      by_cases h49 : p = 49
      · rw [if_pos h49]; exact ih _ _
      rw [if_neg h49]
      by_cases h30 : 30 ≤ p ∧ p ≤ 37
      · rw [if_pos h30]; exact ih _ _
      rw [if_neg h30]
      by_cases h40 : 40 ≤ p ∧ p ≤ 47
      · rw [if_pos h40]; exact ih _ _
      rw [if_neg h40]
      by_cases h90 : 90 ≤ p ∧ p ≤ 97
      · rw [if_pos h90]; exact ih _ _
      rw [if_neg h90]
      by_cases h100 : 100 ≤ p ∧ p ≤ 107
      · rw [if_pos h100]; exact ih _ _
      rw [if_neg h100]
      by_cases h38 : p = 38
      · rw [if_pos h38]
        by_cases h38b : 2 ≤ rest.length ∧ rest.headD 0 = 5
        · rw [if_pos h38b]; exact ih _ _
        · rw [if_neg h38b]; exact ih _ _
      rw [if_neg h38]
      by_cases h48 : p = 48
      · rw [if_pos h48]
        by_cases h48b : 2 ≤ rest.length ∧ rest.headD 0 = 5
        · rw [if_pos h48b]; exact ih _ _
        · rw [if_neg h48b]; exact ih _ _
      rw [if_neg h48]
      exact ih _ _

theorem cdim_setSGR (t : TermState) (params : List Int) :
    cdim (t.setSGR params) = cdim t := by
  unfold TermState.setSGR
  split
  · rfl
  · exact cdim_setSGRGo _ _ _

theorem cdim_setScrollingRegion (t : TermState) (a b : Int) :
    cdim (t.setScrollingRegion a b) = cdim t := by
  unfold TermState.setScrollingRegion
  split <;> rfl

/-- `handleControlChar` moves the cursor through clamped primitives only. -/
theorem handleControlChar_bounds (t : TermState) (c0 : Nat)
    (hr : 1 ≤ t.currentBuffer.rows) (hc : 1 ≤ t.currentBuffer.cols)
    (hb : cursorInBounds t) : cursorInBounds (handleControlChar c0 t) := by
  unfold handleControlChar
  split_ifs
  · exact setCursorPos_clamped_bounds t _ _ hr hc
  · exact lineFeed_bounds t hr hc
  · exact clampCursor_bounds _ hr hc
  · exact hb
  · exact clampCursor_bounds _ hr hc
  · exact hb

/-- `putChar` keeps the cursor row strictly in bounds and the column at
most `cols` (exactly `cols` only after writing in the last column). -/
theorem putChar_bounds (t : TermState) (ch : Nat)
    (hr : 1 ≤ t.currentBuffer.rows) (hc : 1 ≤ t.currentBuffer.cols)
    (hb : cursorInBounds t) : cursorInBounds (t.putChar ch) := by
  obtain ⟨hb1, hb2, hb3, hb4⟩ := hb
  simp only [TermState.putChar]
  split_ifs with h13 h10 hskip hwrap
  · exact clampCursor_bounds _ hr hc
  · exact clampCursor_bounds _
      (le_of_le_of_eq hr (rows_lineFeed _).symm) (le_of_le_of_eq hc (cols_lineFeed _).symm)
  · exact ⟨hb1, hb2, hb3, hb4⟩
  · -- wrap: line feed, column 0, write, column 1
    have hlf := lineFeed_bounds t hr hc
    obtain ⟨g1, g2, g3, g4⟩ := hlf
    exact putChar_write_bounds_aux ({ t.lineFeed with cursorCol := 0 } : TermState) _
      rfl rfl g1 g2 (le_refl 0)
      (show (0 : Int) + 1 ≤ (t.lineFeed.currentBuffer.cols : Int) by
        rw [cols_lineFeed]
        omega)
  · -- no wrap: write at (row, col), column becomes col + 1 ≤ cols
    exact putChar_write_bounds_aux t _ rfl rfl hb1 hb2 hb3 (by omega)

theorem WF_dims (t : TermState) (h : WF t) :
    1 ≤ t.currentBuffer.rows ∧ 1 ≤ t.currentBuffer.cols := by
  obtain ⟨h1, h2, h3, h4, _⟩ := h
  unfold TermState.currentBuffer
  rcases hf : t.inAlternateScreen <;> simp only [hf, if_true, if_false, Bool.false_eq_true,
    ite_false, ite_true] <;> omega

theorem setCursorPos_unclamped_bounds (t : TermState) (r c : Int)
    (h1 : 0 ≤ r) (h2 : r < (t.currentBuffer.rows : Int))
    (h3 : 0 ≤ c) (h4 : c ≤ (t.currentBuffer.cols : Int)) :
    cursorInBounds (t.setCursorPos r c false) := by
  unfold TermState.setCursorPos
  unfold cursorInBounds
  rw [currentBuffer_withCursor]
  exact ⟨h1, h2, h3, h4⟩

/-- C4 amended: starting from a well-formed state, every cursor-setting or
cursor-moving operation — `putChar`, `lineFeed`, `reverseLineFeed`, clamped
`setCursorPos`, save/restore, the `setCursorRow`/`setCursorCol` setters,
and the decoder-driven motions (`handleControlChar` and every
`csiDispatch`) — leaves the cursor with `0 ≤ row < rows` and
`0 ≤ col ≤ cols` (the column can equal `cols` only via `putChar`'s
deferred wrap; `setTerminalSize`, which does not re-clamp, is the
exception the counterexample exhibits). -/
theorem c4_amended_cursor_stays_bounded (t : TermState) (h : WF t) :
    (∀ ch : Nat, cursorInBounds (t.putChar ch)) ∧
    cursorInBounds t.lineFeed ∧
    cursorInBounds t.reverseLineFeed ∧
    (∀ r c : Int, cursorInBounds (t.setCursorPos r c true)) ∧
    cursorInBounds t.saveCursorPos ∧
    cursorInBounds t.restoreCursorPos ∧
    (∀ r : Int, cursorInBounds (t.setCursorRow r)) ∧
    (∀ c : Int, cursorInBounds (t.setCursorCol c)) ∧
    (∀ c0 : Nat, cursorInBounds (handleControlChar c0 t)) ∧
    (∀ (p : PState) (fb : Nat), cursorInBounds (csiDispatch fb { parser := p, widget := t }).widget) := by
  obtain ⟨hr, hc⟩ := WF_dims t h
  have hb : cursorInBounds t := h.2.2.2.2.1
  obtain ⟨hb1, hb2, hb3, hb4⟩ := hb
  refine ⟨?_, ?_, ?_, ?_, ?_, ?_, ?_, ?_, ?_, ?_⟩
  · exact fun ch => putChar_bounds t ch hr hc ⟨hb1, hb2, hb3, hb4⟩
  · exact lineFeed_bounds t hr hc
  · exact reverseLineFeed_bounds t hr hc
  · exact fun r c => setCursorPos_clamped_bounds t r c hr hc
  · exact ⟨hb1, hb2, hb3, hb4⟩
  · exact clampCursor_bounds _ hr hc
  · exact fun r => clampCursor_bounds _ hr hc
  · exact fun c => clampCursor_bounds _ hr hc
  · exact fun c0 => handleControlChar_bounds t c0 hr hc ⟨hb1, hb2, hb3, hb4⟩
  · intro p fb
    unfold csiDispatch
    dsimp only
    by_cases h65 : fb = 65
    · rw [if_pos h65]; exact clampCursor_bounds _ hr hc
    rw [if_neg h65]
    by_cases h66 : fb = 66
    · rw [if_pos h66]; exact clampCursor_bounds _ hr hc
    rw [if_neg h66]
    by_cases h67 : fb = 67
    · rw [if_pos h67]; exact clampCursor_bounds _ hr hc
    rw [if_neg h67]
    by_cases h68 : fb = 68
    · rw [if_pos h68]; exact clampCursor_bounds _ hr hc
    rw [if_neg h68]
    by_cases h71 : fb = 71
    · rw [if_pos h71]
      exact setCursorPos_unclamped_bounds t _ _ hb1 hb2
        (by unfold iclamp; omega) (by unfold iclamp; omega)
    rw [if_neg h71]
    by_cases h72 : fb = 72 ∨ fb = 102
    · rw [if_pos h72]
      exact setCursorPos_unclamped_bounds t _ _
        (by unfold iclamp; omega) (by unfold iclamp; omega)
        (by unfold iclamp; omega) (by unfold iclamp; omega)
    rw [if_neg h72]
    by_cases h74 : fb = 74
    · rw [if_pos h74]
      exact cursorInBounds_of_cdim_eq _ _ (cdim_eraseInDisplay t _) ⟨hb1, hb2, hb3, hb4⟩
    rw [if_neg h74]
    by_cases h75 : fb = 75
    · rw [if_pos h75]
      exact cursorInBounds_of_cdim_eq _ _ (cdim_eraseInLine t _) ⟨hb1, hb2, hb3, hb4⟩
    rw [if_neg h75]
    by_cases h80 : fb = 80
    · rw [if_pos h80]
      exact cursorInBounds_of_cdim_eq _ _ (cdim_deleteChars t _) ⟨hb1, hb2, hb3, hb4⟩
    rw [if_neg h80]
    by_cases h88 : fb = 88
    · rw [if_pos h88]
      exact cursorInBounds_of_cdim_eq _ _ (cdim_eraseChars t _) ⟨hb1, hb2, hb3, hb4⟩
    rw [if_neg h88]
    by_cases h64 : fb = 64
    · rw [if_pos h64]
      exact cursorInBounds_of_cdim_eq _ _ (cdim_insertChars t _) ⟨hb1, hb2, hb3, hb4⟩
    rw [if_neg h64]
    by_cases h109 : fb = 109
    · rw [if_pos h109]
      exact cursorInBounds_of_cdim_eq _ _ (cdim_setSGR t _) ⟨hb1, hb2, hb3, hb4⟩
    rw [if_neg h109]
    by_cases h114 : fb = 114
    · rw [if_pos h114]
      split
      · exact cursorInBounds_of_cdim_eq _ _ (cdim_setScrollingRegion t _ _) ⟨hb1, hb2, hb3, hb4⟩
      · exact cursorInBounds_of_cdim_eq _ _ (cdim_setScrollingRegion t _ _) ⟨hb1, hb2, hb3, hb4⟩
    rw [if_neg h114]
    exact ⟨hb1, hb2, hb3, hb4⟩

/-- C4 amended, witness: on a fresh 2×3 state, `putChar` and `lineFeed`
leave the cursor within the amended bounds. -/
theorem c4_witness :
    cursorInBounds ((mkSmall 2 3).putChar 88) ∧ cursorInBounds (mkSmall 2 3).lineFeed := by
  have h := c4_amended_cursor_stays_bounded (mkSmall 2 3)
    (by unfold WF cursorInBounds; decide)
  exact ⟨h.1 88, h.2.1⟩

/-- `setCurrentBuffer` writes a grid, never the scrollback capacity. -/
theorem scrollbackMax_setCurrentBuffer (t : TermState) (b : ScreenBuffer) :
    (t.setCurrentBuffer b).scrollbackMax = t.scrollbackMax := by
  unfold TermState.setCurrentBuffer
  split <;> rfl

/-- `scrollUp` never changes the scrollback capacity. -/
theorem scrollbackMax_scrollUp (t : TermState) (a b : Int) :
    (t.scrollUp a b).scrollbackMax = t.scrollbackMax := by
  simp only [TermState.scrollUp]
  split
  · rfl
  · simp only [scrollbackMax_setCurrentBuffer]

/-- The scrollback after an effective `scrollUp`: the vacated top row is
appended, the oldest row evicted when the deque is at capacity. -/
theorem scrollback_scrollUp_push (t : TermState) (top bottom : Int)
    (h : ¬ (bottom - top + 1 ≤ 0)) :
    (t.scrollUp top bottom).scrollback =
      (if t.scrollback.length = t.scrollbackMax then t.scrollback.tail else t.scrollback)
        ++ [t.currentBuffer.row top] := by
  simp only [TermState.scrollUp, h, if_false, scrollback_setCurrentBuffer]

/-- An ineffective `scrollUp` (empty region) is the identity. -/
theorem scrollUp_empty_region (t : TermState) (top bottom : Int)
    (h : bottom - top + 1 ≤ 0) : t.scrollUp top bottom = t := by
  simp only [TermState.scrollUp, h, if_true]

/-- The state component of `runScrollOps` is the plain `scrollUp`
iteration. -/
theorem runScrollOps_fst (ops : List (Int × Int)) (t : TermState) :
    (runScrollOps ops t).1 = ops.foldl (fun acc p => acc.scrollUp p.1 p.2) t := by
  induction ops generalizing t with
  | nil => rfl
  | cons p ops ih =>
    obtain ⟨a, b⟩ := p
    simp only [runScrollOps, List.foldl_cons, ih]

/-- Pure list form of one FIFO push: appending one element (after evicting
the head when at capacity) commutes with keeping only the last `M`
elements. -/
theorem fifo_push_drop {α : Type} (sb E : List α) (r : α) (M : Nat)
    (hM : 1 ≤ M) (hsb : sb.length ≤ M) :
    (((if sb.length = M then sb.tail else sb) ++ [r]) ++ E).drop
        (((if sb.length = M then sb.tail else sb) ++ [r]).length + E.length - M)
      = (sb ++ (r :: E)).drop (sb.length + (r :: E).length - M) := by
  by_cases hfull : sb.length = M
  · rw [if_pos hfull]
    have hne : sb ≠ [] := by
      intro hnil
      rw [hnil] at hfull
      simp at hfull
      omega
    obtain ⟨hd, tl, rfl⟩ := List.exists_cons_of_ne_nil hne
    simp only [List.length_cons] at hfull
    have c1 : (tl ++ [r]).length + E.length - M = E.length := by
      simp only [List.length_append, List.length_cons, List.length_nil]
      omega
    have c2 : (hd :: tl).length + (r :: E).length - M = E.length + 1 := by
      simp only [List.length_cons]
      omega
    simp only [List.tail_cons]
    rw [c1, c2]
    simp only [List.cons_append, List.drop_succ_cons,
      List.append_assoc, List.singleton_append, List.nil_append]
  · rw [if_neg hfull]
    have c : (sb ++ [r]).length + E.length - M = sb.length + (r :: E).length - M := by
      simp only [List.length_append, List.length_cons, List.length_nil]
      omega
    rw [c, List.append_assoc, List.singleton_append]

/-- FIFO content of the scrollback after a sequence of `scrollUp` calls,
generalized to any starting deque within capacity. -/
theorem scrollback_runScrollOps (ops : List (Int × Int)) (t : TermState)
    (hM : 1 ≤ t.scrollbackMax) (hsb : t.scrollback.length ≤ t.scrollbackMax) :
    (runScrollOps ops t).1.scrollback =
      (t.scrollback ++ (runScrollOps ops t).2).drop
        (t.scrollback.length + (runScrollOps ops t).2.length - t.scrollbackMax) := by
  induction ops generalizing t with
  | nil =>
    simp only [runScrollOps, List.length_nil, Nat.add_zero, List.append_nil]
    rw [Nat.sub_eq_zero_of_le hsb, List.drop_zero]
  | cons p ops ih =>
    obtain ⟨a, b⟩ := p
    by_cases hreg : b - a + 1 ≤ 0
    · have hid : t.scrollUp a b = t := scrollUp_empty_region t a b hreg
      simp only [runScrollOps, hreg, if_true, hid, List.nil_append]
      exact ih t hM hsb
    · have hpush := scrollback_scrollUp_push t a b hreg
      have hmax := scrollbackMax_scrollUp t a b
      have hlen' : (t.scrollUp a b).scrollback.length ≤ (t.scrollUp a b).scrollbackMax := by
        rw [hpush, hmax]
        have htail : t.scrollback.tail.length = t.scrollback.length - 1 :=
          List.length_tail _
        by_cases hfull : t.scrollback.length = t.scrollbackMax
        · rw [if_pos hfull]
          simp only [List.length_append, List.length_singleton]
          omega
        · rw [if_neg hfull]
          simp only [List.length_append, List.length_singleton]
          omega
      have IH := ih (t.scrollUp a b) (by rw [hmax]; exact hM) hlen'
      simp only [runScrollOps, hreg, if_false, List.singleton_append]
      rw [IH, hpush, hmax]
      exact fifo_push_drop t.scrollback (runScrollOps ops (t.scrollUp a b)).2
        (t.currentBuffer.row a) t.scrollbackMax hM hsb

/-- C6: starting from an empty scrollback on the primary screen, after any
sequence of `scrollUp` calls the scrollback holds exactly the most recent
`min(totalPushed, scrollbackMax)` vacated rows, oldest first, so its length
never exceeds the configured maximum. -/
theorem c6_scrollback_fifo_bound (ops : List (Int × Int)) (t : TermState)
    (_hprim : t.inAlternateScreen = false) (hM : 1 ≤ t.scrollbackMax)
    (hsb : t.scrollback = []) :
    (runScrollOps ops t).1.scrollback =
      (runScrollOps ops t).2.drop ((runScrollOps ops t).2.length - t.scrollbackMax) ∧
    (runScrollOps ops t).1.scrollback.length =
      min (runScrollOps ops t).2.length t.scrollbackMax ∧
    (runScrollOps ops t).1 = ops.foldl (fun acc p => acc.scrollUp p.1 p.2) t := by
  have h := scrollback_runScrollOps ops t hM (by rw [hsb]; exact Nat.zero_le _)
  rw [hsb] at h
  simp only [List.nil_append, List.length_nil, Nat.zero_add] at h
  refine ⟨h, ?_, runScrollOps_fst ops t⟩
  rw [h, List.length_drop]
  omega

/-- C6 witness: three full-screen `scrollUp` calls on a 2×1 screen whose
scrollback capacity is 2 retain exactly the last two vacated rows. -/
theorem c6_witness :
    (runScrollOps [(0, 1), (0, 1), (0, 1)] { mkSmall 2 1 with scrollbackMax := 2 }).1.scrollback =
      (runScrollOps [(0, 1), (0, 1), (0, 1)] { mkSmall 2 1 with scrollbackMax := 2 }).2.drop
        ((runScrollOps [(0, 1), (0, 1), (0, 1)] { mkSmall 2 1 with scrollbackMax := 2 }).2.length - 2) :=
  (c6_scrollback_fifo_bound [(0, 1), (0, 1), (0, 1)]
    { mkSmall 2 1 with scrollbackMax := 2 } (by decide) (by decide) (by decide)).1

/-- C8 witness: from dirtied attributes (3, 5, 7), `ESC[0m` restores
(7, 0, none), and the unknown SGR code 99 is skipped. -/
theorem c8_witness :
    (feed [0x1B, 91, 48, 109] exampleAttr).widget.currentFg = 7 ∧
    (feed [0x1B, 91, 48, 109] exampleAttr).widget.currentBg = 0 ∧
    (feed [0x1B, 91, 48, 109] exampleAttr).widget.currentStyle = 0 ∧
    TermState.setSGRLoop (mkSmall 2 3) (99 :: []) = TermState.setSGRLoop (mkSmall 2 3) [] := by
  have h := c8_sgr_reset_and_unknown_skip exampleAttr rfl rfl
  exact ⟨h.1, h.2.1, h.2.2.1, h.2.2.2 (mkSmall 2 3) 99 [] (by unfold sgrKnownCode; omega)⟩

/-- ASCII bytes decode to themselves. -/
theorem decodeUtf8_ascii : ∀ (l : List Nat), (∀ b ∈ l, b < 0x80) → decodeUtf8 l = l
  | [], _ => rfl
  | b :: rest, h => by
    have hb : b < 0x80 := h b (List.mem_cons_self b rest)
    have ih := decodeUtf8_ascii rest (fun x hx => h x (List.mem_cons_of_mem b hx))
    unfold decodeUtf8 at ih ⊢
    rw [List.length_cons, decodeUtf8Go, if_pos hb, ih]

/-- A unit that is not a high surrogate is emitted alone, whatever
follows. -/
theorem emitUnits_cons_of_not_high (u : Nat) (l : List Nat) (t : TermState)
    (hu : TermState.isHighSurrogate u = false) :
    emitUnits (u :: l) t = emitUnits l (emitOne u t) := by
  cases l with
  | nil => rfl
  | cons v rest => simp [emitUnits, hu]

/-- Emitting a concatenation of units equals emitting the parts in order,
provided the first part is ASCII (so no surrogate pair can straddle the
boundary). -/
theorem emitUnits_append_of_ascii :
    ∀ (xs : List Nat), (∀ u ∈ xs, u < 0x80) → ∀ (ys : List Nat) (t : TermState),
      emitUnits (xs ++ ys) t = emitUnits ys (emitUnits xs t)
  | [], _ => fun _ _ => rfl
  | x :: xs, h => fun ys t => by
    have hx : TermState.isHighSurrogate x = false := by
      have := h x (List.mem_cons_self x xs)
      simp only [TermState.isHighSurrogate, decide_eq_false_iff_not]
      omega
    rw [List.cons_append, emitUnits_cons_of_not_high x (xs ++ ys) t hx,
      emitUnits_cons_of_not_high x xs t hx]
    exact emitUnits_append_of_ascii xs (fun u hu => h u (List.mem_cons_of_mem x hu)) ys
      (emitOne x t)

/-- Flushing with an empty text buffer is the identity. -/
theorem flush_empty (s : FullState) (h : s.parser.textBuffer = []) :
    flushTextBuffer s = s := by
  obtain ⟨⟨st, tb, pb, im, osc, q⟩, w⟩ := s
  simp only at h
  subst h
  rfl

/-- Flushing is idempotent. -/
theorem flush_flush (s : FullState) : flushTextBuffer (flushTextBuffer s) = flushTextBuffer s :=
  flush_empty _ rfl

theorem inv_of_tb_empty (s : FullState) (h : s.parser.textBuffer = []) :
    TBInv s ∧ TBAscii s :=
  ⟨fun _ => h, fun x hx => absurd (h ▸ hx) (List.not_mem_nil x)⟩

/-- `csiDispatch` clears the parameter buffers only; the pending text
buffer survives. -/
theorem textBuffer_csiDispatch (b : Nat) (s : FullState) :
    (csiDispatch b s).parser.textBuffer = s.parser.textBuffer := rfl

theorem textBuffer_processCsiSubState (b : Nat) (s : FullState) :
    (processCsiSubState b s).parser.textBuffer = s.parser.textBuffer := by
  rcases hst : s.parser.state <;>
    simp only [processCsiSubState, hst] <;>
    try rfl
  all_goals split_ifs <;> rfl

theorem textBuffer_processEscapeByte (b : Nat) (s : FullState) :
    (processEscapeByte b s).parser.textBuffer = s.parser.textBuffer := by
  unfold processEscapeByte
  split_ifs <;> rfl

theorem textBuffer_oscDispatch (s : FullState) :
    (oscDispatch s).parser.textBuffer = s.parser.textBuffer := by
  simp only [oscDispatch]
  split
  · rfl
  · split
    · rfl
    · split_ifs <;> rfl

theorem textBuffer_processOscByte (b : Nat) (s : FullState) :
    (processOscByte b s).parser.textBuffer = s.parser.textBuffer := by
  unfold processOscByte
  split_ifs <;> first
    | rfl
    | exact textBuffer_oscDispatch _

/-- Processing one ASCII byte preserves the text-buffer invariants. -/
theorem processByte_inv (b : Nat) (s : FullState) (hb : b < 0x80)
    (h1 : TBInv s) (h2 : TBAscii s) :
    TBInv (processByte b s) ∧ TBAscii (processByte b s) := by
  by_cases hg : s.parser.state = MState.ground
  · simp only [processByte, hg]
    split_ifs with h27 hctl
    · exact inv_of_tb_empty _ rfl
    · exact inv_of_tb_empty _ rfl
    · constructor
      · intro hne
        exact absurd rfl hne
      · intro x hx
        have hx' : x ∈ s.parser.textBuffer ++ [b] := hx
        rcases List.mem_append.mp hx' with hm | hm
        · exact h2 x hm
        · rw [List.mem_singleton] at hm
          subst hm
          exact hb
  · have htb : s.parser.textBuffer = [] := h1 hg
    rcases hst : s.parser.state with _ | _ | _ | _ | _ | _ | _ | _
    · exact absurd hst hg
    · simp only [processByte, hst]
      exact inv_of_tb_empty _ ((textBuffer_processEscapeByte b s).trans htb)
    · simp only [processByte, hst]
      exact inv_of_tb_empty _ ((textBuffer_processCsiSubState b s).trans htb)
    · simp only [processByte, hst]
      exact inv_of_tb_empty _ ((textBuffer_processCsiSubState b s).trans htb)
    · simp only [processByte, hst]
      exact inv_of_tb_empty _ ((textBuffer_processCsiSubState b s).trans htb)
    · simp only [processByte, hst]
      exact inv_of_tb_empty _ ((textBuffer_processCsiSubState b s).trans htb)
    · simp only [processByte, hst]
      exact inv_of_tb_empty _ ((textBuffer_processOscByte b s).trans htb)
    · simp only [processByte, hst]
      exact inv_of_tb_empty _ htb

theorem mem_ascii_append (tb : List Nat) (b : Nat)
    (ha : ∀ x ∈ tb, x < 0x80) (hb : b < 0x80) : ∀ x ∈ tb ++ [b], x < 0x80 := by
  intro x hx
  rcases List.mem_append.mp hx with hm | hm
  · exact ha x hm
  · rw [List.mem_singleton] at hm
    subst hm
    exact hb

/-- Processing one ASCII byte commutes with a pending flush: two states
that agree after flushing still agree after processing the byte and
flushing. -/
theorem processByte_flush_eq (b : Nat) (s₁ s₂ : FullState) (hb : b < 0x80)
    (h1i : TBInv s₁) (h2i : TBInv s₂) (h1a : TBAscii s₁) (h2a : TBAscii s₂)
    (heq : flushTextBuffer s₁ = flushTextBuffer s₂) :
    flushTextBuffer (processByte b s₁) = flushTextBuffer (processByte b s₂) := by
  obtain ⟨⟨st₁, tb₁, pb₁, im₁, osc₁, q₁⟩, w₁⟩ := s₁
  obtain ⟨⟨st₂, tb₂, pb₂, im₂, osc₂, q₂⟩, w₂⟩ := s₂
  have hstate : st₁ = st₂ := congrArg (fun x => x.parser.state) heq
  subst hstate
  have ha₁ : ∀ x ∈ tb₁, x < 0x80 := h1a
  have ha₂ : ∀ x ∈ tb₂, x < 0x80 := h2a
  by_cases hg : st₁ = MState.ground
  · subst hg
    simp only [processByte]
    split_ifs with h27 hctl
    · rw [heq]
    · rw [heq]
    · unfold flushTextBuffer at heq ⊢
      dsimp only at heq ⊢
      rw [decodeUtf8_ascii tb₁ ha₁, decodeUtf8_ascii tb₂ ha₂] at heq
      rw [decodeUtf8_ascii (tb₁ ++ [b]) (mem_ascii_append tb₁ b ha₁ hb),
        decodeUtf8_ascii (tb₂ ++ [b]) (mem_ascii_append tb₂ b ha₂ hb),
        emitUnits_append_of_ascii tb₁ ha₁ [b] w₁,
        emitUnits_append_of_ascii tb₂ ha₂ [b] w₂]
      simp only [FullState.mk.injEq, PState.mk.injEq] at heq
      obtain ⟨⟨_, _, hpb, him, hosc, hq⟩, hw⟩ := heq
      simp only [FullState.mk.injEq, PState.mk.injEq]
      exact ⟨⟨trivial, trivial, hpb, him, hosc, hq⟩, by rw [hw]⟩
  · have e1 := flush_empty _ (h1i hg)
    have e2 := flush_empty _ (h2i hg)
    have hss := e1.symm.trans (heq.trans e2)
    rw [hss]

/-- `feedBytes` preserves the text-buffer invariants on ASCII input. -/
theorem feedBytes_inv (l : List Nat) (s : FullState) (hl : ∀ b ∈ l, b < 0x80)
    (h1 : TBInv s) (h2 : TBAscii s) :
    TBInv (feedBytes l s) ∧ TBAscii (feedBytes l s) := by
  induction l generalizing s with
  | nil => exact ⟨h1, h2⟩
  | cons b rest ih =>
    have hb : b < 0x80 := hl b (List.mem_cons_self b rest)
    have h' := processByte_inv b s hb h1 h2
    exact ih (processByte b s) (fun x hx => hl x (List.mem_cons_of_mem b hx)) h'.1 h'.2

/-- `feedBytes` on ASCII input commutes with a pending flush. -/
theorem feedBytes_flush_eq (l : List Nat) (s₁ s₂ : FullState)
    (hl : ∀ b ∈ l, b < 0x80)
    (h1i : TBInv s₁) (h1a : TBAscii s₁) (h2i : TBInv s₂) (h2a : TBAscii s₂)
    (heq : flushTextBuffer s₁ = flushTextBuffer s₂) :
    flushTextBuffer (feedBytes l s₁) = flushTextBuffer (feedBytes l s₂) := by
  induction l generalizing s₁ s₂ with
  | nil => exact heq
  | cons b rest ih =>
    have hb : b < 0x80 := hl b (List.mem_cons_self b rest)
    have p1 := processByte_inv b s₁ hb h1i h1a
    have p2 := processByte_inv b s₂ hb h2i h2a
    exact ih (processByte b s₁) (processByte b s₂)
      (fun x hx => hl x (List.mem_cons_of_mem b hx)) p1.1 p1.2 p2.1 p2.2
      (processByte_flush_eq b s₁ s₂ hb h1i h2i h1a h2a heq)

/-- C3 amended: chunk-boundary invariance holds whenever no chunk boundary
can split a multi-byte UTF-8 character — proved here for every all-ASCII
byte sequence (which covers every escape sequence split at arbitrary byte
boundaries), starting from any decoder state whose pending text buffer is
empty (as after any previous `feed` call, which always flushes). -/
theorem c3_amended_chunked_feed_invariance (chunks : List (List Nat)) (s : FullState)
    (ha : ∀ b ∈ chunks.flatten, b < 0x80) (htb : s.parser.textBuffer = []) :
    feedChunks chunks s = feed chunks.flatten s := by
  induction chunks generalizing s with
  | nil =>
    show s = feed [] s
    exact (flush_empty s htb).symm
  | cons c cs ih =>
    have hax : ∀ b ∈ c ++ cs.flatten, b < 0x80 := fun b hbm => ha b hbm
    have hc : ∀ b ∈ c, b < 0x80 := fun b hbm => hax b (List.mem_append_left _ hbm)
    have hcs : ∀ b ∈ cs.flatten, b < 0x80 := fun b hbm => hax b (List.mem_append_right _ hbm)
    have step1 : feedChunks (c :: cs) s = feedChunks cs (feed c s) := rfl
    have htb' : (feed c s).parser.textBuffer = [] := rfl
    rw [step1, ih (feed c s) hcs htb']
    have hsplit : feedBytes (c ++ cs.flatten) s = feedBytes cs.flatten (feedBytes c s) := by
      unfold feedBytes
      rw [List.foldl_append]
    show flushTextBuffer (feedBytes cs.flatten (flushTextBuffer (feedBytes c s))) =
      flushTextBuffer (feedBytes (c ++ cs.flatten) s)
    rw [hsplit]
    have hxinv := feedBytes_inv c s hc (fun _ => htb)
      (fun x hx => absurd (htb ▸ hx) (List.not_mem_nil x))
    have hfl := inv_of_tb_empty (flushTextBuffer (feedBytes c s)) rfl
    exact feedBytes_flush_eq cs.flatten (flushTextBuffer (feedBytes c s)) (feedBytes c s)
      hcs hfl.1 hfl.2 hxinv.1 hxinv.2 (flush_flush _)

/-- C3 amended, witness: `ESC[31m` fed one byte per `feed` call equals the
whole sequence fed at once, from a fresh session. -/
theorem c3_witness :
    feedChunks [[0x1B], [91], [51], [49], [109]] FullState.init =
      feed [0x1B, 91, 51, 49, 109] FullState.init :=
  c3_amended_chunked_feed_invariance [[0x1B], [91], [51], [49], [109]] FullState.init
    (by decide) rfl

end OneT
